import Mathlib

/-!
Verification development for the clipforge media-pipeline core
(`src/src-tauri/src/lib.rs`).

The Rust source is shallowly embedded:

* `f64` time/ratio values are modelled as exact rationals (`ℚ`).  All
  rational arithmetic in the model is written with the executable helpers
  `qadd`/`qsub`/`qmul`/`qdiv`/`qfloor` below, which are proved equal to the
  corresponding Mathlib operations; this keeps every definition evaluable
  by `decide` while general theorems can use the ordinary `ℚ` theory.
* Effectful code (process spawning, waits, file writes, directory cleanup)
  is modelled by passing an explicit environment describing the outcome of
  each effect, and returning a trace recording results, the commands that
  were actually launched, and the state left behind.
* Byte streams are lists of `Nat` byte values.
-/

/-- Exact rational built with `Rat.divInt`, so that it reduces inside the
kernel. -/
def qofInt (i : Int) : ℚ := Rat.divInt i 1

/-- Executable addition on `ℚ`, written on numerators and denominators so
that `decide` can evaluate it; proved equal to `+` in `qadd_eq`. -/
def qadd (a b : ℚ) : ℚ :=
  Rat.divInt (a.num * (b.den : Int) + b.num * (a.den : Int)) ((a.den : Int) * (b.den : Int))

/-- Executable subtraction on `ℚ` (see `qsub_eq`). -/
def qsub (a b : ℚ) : ℚ :=
  Rat.divInt (a.num * (b.den : Int) - b.num * (a.den : Int)) ((a.den : Int) * (b.den : Int))

/-- Executable multiplication on `ℚ` (see `qmul_eq`). -/
def qmul (a b : ℚ) : ℚ :=
  Rat.divInt (a.num * b.num) ((a.den : Int) * (b.den : Int))

/-- Executable division on `ℚ`; division by zero yields zero, matching `/`
(see `qdiv_eq`). -/
def qdiv (a b : ℚ) : ℚ :=
  Rat.divInt (a.num * (b.den : Int)) ((a.den : Int) * b.num)

/-- Executable floor on `ℚ`: the kernel-computable `Rat.floor` (see
`qfloor_eq`). -/
def qfloor (q : ℚ) : Int := q.floor

/-- Executable negation on `ℚ` (see `qneg_eq`). -/
def qneg (q : ℚ) : ℚ := Rat.divInt (- q.num) (q.den : Int)

/-- Rust float-to-integer conversion (`as i32`) truncates toward zero: the
floor for nonnegative values, minus the floor of the negation otherwise. -/
def rustTrunc (q : ℚ) : Int :=
  if 0 ≤ q.num then qfloor q else - qfloor (qneg q)

/-- Rust `%` on `f64` is the remainder of truncating division: `a - b * trunc
(a / b)`. -/
def rustMod (a b : ℚ) : ℚ :=
  qsub a (qmul b (qofInt (rustTrunc (qdiv a b))))

/-- Rust float-to-`u32` conversion saturates: negative values clamp to `0`
and values above the `u32` range clamp to `4294967295`. -/
def u32cast (i : Int) : Nat := min i.toNat 4294967295

/-- Rounding to the nearest integer with ties to even: the rounding Rust
float formatting applies when printing with a fixed number of decimals. -/
def roundHalfEven (q : ℚ) : Int :=
  let f := qfloor q
  let r := qsub q (qofInt f)
  if 2 * r.num < (r.den : Int) then f
  else if (r.den : Int) < 2 * r.num then f + 1
  else if f % 2 = 0 then f else f + 1

/-- Decimal digits of a `Nat`, zero-padded on the left to width two (Rust
format width `02`). -/
def padNat2 (n : Nat) : String :=
  if n < 10 then "0" ++ toString n else toString n

/-- Decimal digits of a `Nat`, zero-padded on the left to width three. -/
def padNat3 (n : Nat) : String :=
  if n < 10 then "00" ++ toString n
  else if n < 100 then "0" ++ toString n
  else toString n

/-- Seconds field of `format_time` before printing: `seconds % 60.0` in Rust
remainder semantics. -/
def fmtSecsQ (s : ℚ) : ℚ := rustMod s (qofInt 60)

/-- The seconds field scaled to milliseconds and rounded the way the Rust
`06.3` format rounds it. -/
def fmtSecsMillis (s : ℚ) : Int := roundHalfEven (qmul (qofInt 1000) (fmtSecsQ s))

/-- The `SS.mmm` part of `format_time`: the rounded seconds printed with
three decimals and zero-padded to total width six. -/
def fmtSecsStr (s : ℚ) : String :=
  let mi := fmtSecsMillis s
  if mi < 0 then
    "-" ++ toString ((- mi).toNat / 1000) ++ "." ++ padNat3 ((- mi).toNat % 1000)
  else
    padNat2 (mi.toNat / 1000) ++ "." ++ padNat3 (mi.toNat % 1000)

/-- Hours field of `format_time`: `(seconds / 3600.0) as u32`. -/
def fmtHours (s : ℚ) : Nat := u32cast (qfloor (qdiv s (qofInt 3600)))

/-- Minutes field of `format_time`: `((seconds % 3600.0) / 60.0) as u32`. -/
def fmtMinutes (s : ℚ) : Nat :=
  u32cast (qfloor (qdiv (rustMod s (qofInt 3600)) (qofInt 60)))

/-- Model of the Rust helper `format_time` (lib.rs lines 173 to 178): seconds
rendered as `HH:MM:SS.mmm`. -/
def format_time (s : ℚ) : String :=
  padNat2 (fmtHours s) ++ ":" ++ padNat2 (fmtMinutes s) ++ ":" ++ fmtSecsStr s

/-- Reading a `format_time` output back as hours times 3600 plus minutes
times 60 plus the printed seconds field, each field taken at its exact value. -/
def parsed_time (s : ℚ) : ℚ :=
  qadd (qadd (qofInt (3600 * (fmtHours s : Int))) (qofInt (60 * (fmtMinutes s : Int))))
    (qdiv (qofInt (fmtSecsMillis s)) (qofInt 1000))

/-- Powers of ten. -/
def pow10 (k : Nat) : Nat := 10 ^ k

/-- Number of decimal digits of the fractional part of a rational whose
denominator divides a power of ten. -/
def decDigits (a : ℚ) : Nat :=
  (((List.range 18).find? (fun k => (qmul a (qofInt (Int.ofNat (pow10 k)))).den = 1)).getD 17)

/-- Decimal digits of `n`, zero-padded on the left to width `k`. -/
def padLeftZeros (k : Nat) (n : Nat) : String :=
  let s := toString n
  if s.length < k then String.mk (List.replicate (k - s.length) '0') ++ s else s

/-- Rust `Display` of an `f64` holding one of the exact decimal fractions
arising in this code: integral values print with no decimal point, other
values print their fractional digits with trailing zeros removed. -/
def fmtF64 (q : ℚ) : String :=
  let neg := q.num < 0
  let a := if neg then qneg q else q
  let k := decDigits a
  let scaled := (qfloor (qmul a (qofInt (Int.ofNat (pow10 k))))).toNat
  let body :=
    if k = 0 then toString scaled
    else toString (scaled / pow10 k) ++ "." ++ padLeftZeros k (scaled % pow10 k)
  if neg then "-" ++ body else body

/-- The resolution-tier match of `trim_video` (lib.rs lines 193 to 209):
stream-copy flag, scale filter and bitrate per tier, or an error for an
unknown tier. -/
def tierPolicy (res : Option String) : Except String (Bool × String × String) :=
  match res with
  | some "720p" => Except.ok (true, "scale=1280:720", "2500k")
  | some "1080p" => Except.ok (true, "scale=1920:1080", "5000k")
  | some "source" => Except.ok (false, "", "8000k")
  | none => Except.ok (false, "", "8000k")
  | some r => Except.error ("Invalid resolution: " ++ r)

/-- The ffmpeg argument list `trim_video` synthesizes for its tier policy. -/
def trim_args (inputPath outputPath : String) (startTime endTime : ℚ)
    (exportResolution : Option (Option String)) : Except String (List String) :=
  let startStr := format_time startTime
  let durStr := fmtF64 (qsub endTime startTime)
  let res : Option String :=
    match exportResolution with
    | none => some "source"
    | some r => r
  match tierPolicy res with
  | Except.error e => Except.error e
  | Except.ok (shouldScale, scaleFilter, bitrate) =>
    Except.ok (["-y", "-ss", startStr, "-i", inputPath, "-t", durStr]
      ++ (if shouldScale then ["-vf", scaleFilter] else [])
      ++ (if shouldScale then ["-c:v", "libx264", "-preset", "fast", "-b:v", bitrate]
          else ["-c", "copy"])
      ++ ["-avoid_negative_ts", "make_zero", outputPath])

/-- Model of the Rust command `trim_video` (lib.rs lines 157 to 282): resolve
the tier policy, then synthesize and spawn the ffmpeg invocation; the pair
returned is the result and the number of spawns. No other validation happens. -/
def trim_video (inputPath outputPath : String) (startTime endTime : ℚ)
    (exportResolution : Option (Option String)) (spawnOk exitSuccess : Bool) :
    Except String String × Nat :=
  match trim_args inputPath outputPath startTime endTime exportResolution with
  | Except.error e => (Except.error e, 0)
  | Except.ok _ =>
    if spawnOk then
      if exitSuccess then (Except.ok outputPath, 1)
      else (Except.error "FFmpeg exited with status: nonzero", 1)
    else (Except.error "Failed to start FFmpeg: oserr", 0)

/-- One entry of the clip list handed to `concatenate_clips`, reduced to the
fields the synthesized commands depend on. -/
structure ClipSeg where
  path : String
  clip_start : ℚ
  clip_end : ℚ
deriving DecidableEq

/-- The optional picture-in-picture track of `concatenate_clips`. -/
structure PipTrack where
  path : String
  offset : ℚ
  duration : ℚ
  volume : ℚ
  position : String
  size_percent : ℚ
deriving DecidableEq

/-- Outcome the environment prescribes for one spawned command: the spawn
itself fails, the command exits nonzero, or it succeeds. -/
inductive CmdOutcome
  | spawnErr
  | exitFail
  | exitOk
deriving DecidableEq

/-- Environment of one `concatenate_clips` run: outcome of the
scratch-directory creation, of every per-segment command, of the list-file
write, of the final passes, and whether directory removal succeeds. -/
structure ConcatEnv where
  createOk : Bool
  segOutcomes : List CmdOutcome
  writeOk : Bool
  concatOutcome : CmdOutcome
  pipOutcome : CmdOutcome
  removeOk : Bool
deriving DecidableEq

deriving instance DecidableEq for Except

/-- Trace of one `concatenate_clips` run: the returned result, every command
spawned in order, the concat-list document if it was written, whether the
scratch directory was created, and whether its removal was attempted before
returning. -/
structure ConcatTrace where
  result : Except String String
  spawned : List (List String)
  wroteDoc : Option String
  dirCreated : Bool
  cleanupAttempted : Bool
deriving DecidableEq

/-- Scratch directory path: `/tmp/clipforge_` followed by the process id. -/
def tempDirOf (pid : Nat) : String := "/tmp/clipforge_" ++ toString pid

/-- Path of scratch segment `i` inside the scratch directory. -/
def segPath (pid : Nat) (i : Nat) : String :=
  tempDirOf pid ++ "/segment_" ++ toString i ++ ".mp4"

/-- Arguments of the per-segment trim command (lib.rs lines 330 to 362); an
unknown tier falls into the silent catch-all arm and behaves like `source`. -/
def segmentArgs (pid : Nat) (resOpt : Option String) (i : Nat) (clip : ClipSeg) :
    List String :=
  let base := ["-y", "-ss", format_time clip.clip_start, "-i", clip.path,
    "-t", format_time (qsub clip.clip_end clip.clip_start),
    "-c:v", "libx264", "-preset", "fast", "-crf", "18",
    "-c:a", "aac", "-b:a", "192k"]
  let scaled :=
    match resOpt with
    | some "source" => base
    | some "720p" => base ++ ["-vf", "scale=-2:720"]
    | some "1080p" => base ++ ["-vf", "scale=-2:1080"]
    | _ => base
  scaled ++ [segPath pid i]

/-- Result of the per-segment loop: all segments trimmed, a spawn failure at
some index (propagated by the question-mark operator), or a nonzero exit at
some index. -/
inductive SegLoopResult
  | ok
  | spawnFailed (i : Nat)
  | exitFailed (i : Nat)
deriving DecidableEq

/-- The per-segment loop of `concatenate_clips`: runs segment commands in
order, recording the spawned commands, and stops at the first failure. -/
def segLoop (pid : Nat) (resOpt : Option String) (outcomes : List CmdOutcome) :
    Nat → List ClipSeg → List (List String) × SegLoopResult
  | _, [] => ([], SegLoopResult.ok)
  | i, clip :: rest =>
    let cmd := segmentArgs pid resOpt i clip
    match outcomes.getD i CmdOutcome.exitOk with
    | CmdOutcome.spawnErr => ([], SegLoopResult.spawnFailed i)
    | CmdOutcome.exitFail => ([cmd], SegLoopResult.exitFailed i)
    | CmdOutcome.exitOk =>
      let next := segLoop pid resOpt outcomes (i + 1) rest
      (cmd :: next.1, next.2)

/-- The concat-list document written to `concat_list.txt`: one `file` line
per segment, in order, and nothing else. -/
def concatListDoc (pid : Nat) (n : Nat) : String :=
  String.intercalate "\n"
    ((List.range n).map (fun i => "file \x27" ++ segPath pid i ++ "\x27"))

/-- The final concat-demux invocation: `-f concat -safe 0` over the list file
with `-c copy`. -/
def concatDemuxArgs (pid : Nat) (out : String) : List String :=
  ["-y", "-f", "concat", "-safe", "0",
   "-i", tempDirOf pid ++ "/concat_list.txt", "-c", "copy", out]

/-- Overlay coordinate expression for each picture-in-picture position
keyword. -/
def pipOverlayPosition (position : String) : String :=
  match position with
  | "top-left" => "20:20"
  | "top-right" => "main_w-overlay_w-20:20"
  | "bottom-left" => "20:main_h-overlay_h-20"
  | "bottom-right" => "main_w-overlay_w-20:main_h-overlay_h-20"
  | _ => "main_w-overlay_w-20:main_h-overlay_h-20"

/-- Filter-complex string of the picture-in-picture pass, including the
literal `weights=1 0.5` amix weights from the source. -/
def pipFilterComplex (pip : PipTrack) : String :=
  let pipScale := "iw*" ++ fmtF64 (qdiv pip.size_percent (qofInt 100)) ++ ":ih*"
    ++ fmtF64 (qdiv pip.size_percent (qofInt 100))
  "[1:v]scale=" ++ pipScale ++ "[pip];[0:v][pip]overlay="
    ++ pipOverlayPosition pip.position
    ++ ":enable=\x27between(t," ++ fmtF64 pip.offset ++ ","
    ++ fmtF64 (qadd pip.offset pip.duration) ++ ")\x27[v];[0:a][1:a]amix=inputs=2:duration=first:weights="
    ++ fmtF64 (qofInt 1) ++ " " ++ fmtF64 pip.volume ++ "[a]"

/-- The ffmpeg invocation of the picture-in-picture overlay pass. -/
def pipPassArgs (pid : Nat) (pip : PipTrack) (out : String) : List String :=
  ["-y", "-i", tempDirOf pid ++ "/temp_concat.mp4", "-i", pip.path,
   "-filter_complex", pipFilterComplex pip,
   "-map", "[v]", "-map", "[a]",
   "-c:v", "libx264", "-preset", "fast", "-crf", "18",
   "-c:a", "aac", "-b:a", "192k", out]

/-- The intermediate concat invocation used when a picture-in-picture track
is present. -/
def pipTempConcatArgs (pid : Nat) : List String :=
  ["-y", "-f", "concat", "-safe", "0",
   "-i", tempDirOf pid ++ "/concat_list.txt", "-c", "copy",
   tempDirOf pid ++ "/temp_concat.mp4"]

/-- Everything `concatenate_clips` does after the empty-list check, driven by
the environment: create the scratch directory, run the segment loop, write
the list file, run the final pass or passes, and clean up on the paths that
reach cleanup. -/
def concatCore (clips : List ClipSeg) (outputPath : String)
    (resOpt : Option String) (pip : Option PipTrack)
    (pid : Nat) (env : ConcatEnv) : ConcatTrace :=
  if env.createOk = false then
      { result := Except.error "Failed to create temp directory: oserr",
        spawned := [], wroteDoc := none, dirCreated := false, cleanupAttempted := false }
    else
      let seg := segLoop pid resOpt env.segOutcomes 0 clips
      match seg.2 with
      | SegLoopResult.spawnFailed _ =>
        { result := Except.error "Failed to execute FFmpeg: oserr",
          spawned := seg.1, wroteDoc := none, dirCreated := true, cleanupAttempted := false }
      | SegLoopResult.exitFailed i =>
        { result := Except.error ("FFmpeg failed to process segment " ++ toString i),
          spawned := seg.1, wroteDoc := none, dirCreated := true, cleanupAttempted := true }
      | SegLoopResult.ok =>
        if env.writeOk = false then
          { result := Except.error "Failed to write concat list: oserr",
            spawned := seg.1, wroteDoc := none, dirCreated := true, cleanupAttempted := false }
        else
          let doc := concatListDoc pid clips.length
          match pip with
          | none =>
            match env.concatOutcome with
            | CmdOutcome.spawnErr =>
              { result := Except.error "Failed to execute FFmpeg for concatenation: oserr",
                spawned := seg.1, wroteDoc := some doc, dirCreated := true,
                cleanupAttempted := false }
            | CmdOutcome.exitOk =>
              { result := Except.ok outputPath,
                spawned := seg.1 ++ [concatDemuxArgs pid outputPath],
                wroteDoc := some doc, dirCreated := true, cleanupAttempted := true }
            | CmdOutcome.exitFail =>
              { result := Except.error "FFmpeg concatenation failed",
                spawned := seg.1 ++ [concatDemuxArgs pid outputPath],
                wroteDoc := some doc, dirCreated := true, cleanupAttempted := true }
          | some p =>
            match env.concatOutcome with
            | CmdOutcome.spawnErr =>
              { result := Except.error "Failed to execute FFmpeg for temp concatenation: oserr",
                spawned := seg.1, wroteDoc := some doc, dirCreated := true,
                cleanupAttempted := false }
            | CmdOutcome.exitFail =>
              { result := Except.error "FFmpeg temp concatenation failed",
                spawned := seg.1 ++ [pipTempConcatArgs pid],
                wroteDoc := some doc, dirCreated := true, cleanupAttempted := true }
            | CmdOutcome.exitOk =>
              match env.pipOutcome with
              | CmdOutcome.spawnErr =>
                { result := Except.error "Failed to execute FFmpeg for PiP overlay: oserr",
                  spawned := seg.1 ++ [pipTempConcatArgs pid],
                  wroteDoc := some doc, dirCreated := true, cleanupAttempted := false }
              | CmdOutcome.exitOk =>
                { result := Except.ok outputPath,
                  spawned := seg.1 ++ [pipTempConcatArgs pid, pipPassArgs pid p outputPath],
                  wroteDoc := some doc, dirCreated := true, cleanupAttempted := true }
              | CmdOutcome.exitFail =>
                { result := Except.error "FFmpeg PiP overlay failed",
                  spawned := seg.1 ++ [pipTempConcatArgs pid, pipPassArgs pid p outputPath],
                  wroteDoc := some doc, dirCreated := true, cleanupAttempted := true }

/-- Model of the Rust command `concatenate_clips` (lib.rs lines 284 to 513):
empty-list validation, then `concatCore` with the resolved tier option. -/
def concatenate_clips (clips : List ClipSeg) (outputPath : String)
    (exportResolution : Option (Option String)) (pip : Option PipTrack)
    (pid : Nat) (env : ConcatEnv) : ConcatTrace :=
  if clips.isEmpty then
    { result := Except.error "No clips provided for concatenation",
      spawned := [], wroteDoc := none, dirCreated := false, cleanupAttempted := false }
  else
    let resOpt : Option String :=
      match exportResolution with
      | none => some "source"
      | some r => r
    concatCore clips outputPath resOpt pip pid env

/-- A tracked subprocess handle. The `exited` flag records whether the
underlying process already died; the code never reads it. -/
structure Child where
  pid : Nat
  hasStdin : Bool
  exited : Bool
deriving DecidableEq

/-- Options accepted by the start commands. -/
structure RecordingOptions where
  resolution : String
  source_width : Option Int
  source_height : Option Int
  audio_device : Option String
deriving DecidableEq

/-- Resolution handling shared by the start commands: named tiers map to
fixed dimensions and bitrate, `source` requires explicit dimensions, anything
else is rejected. -/
def resolveRecordingRes (o : RecordingOptions) : Except String (Int × Int × String) :=
  match o.resolution with
  | "720p" => Except.ok (1280, 720, "2500k")
  | "1080p" => Except.ok (1920, 1080, "5000k")
  | "source" =>
    match o.source_width, o.source_height with
    | some w, some h => Except.ok (w, h, "8000k")
    | _, _ => Except.error "Source resolution not available"
  | r => Except.error ("Invalid resolution: " ++ r)

/-- Trace of a start command: the returned result, the slot contents
afterwards, and how many processes were spawned. -/
structure StartTrace where
  result : Except String String
  slot : Option Child
  spawns : Nat
deriving DecidableEq

/-- Defaults used when a start command receives no options. -/
def defaultRecordingOptions : RecordingOptions :=
  { resolution := "720p", source_width := none, source_height := none,
    audio_device := none }

/-- Model of the Rust command `start_screen_recording` (lib.rs lines 607 to
755). It never inspects the slot before spawning: a running session is simply
overwritten. -/
def start_screen_recording (options : Option RecordingOptions) (spawnOk : Bool)
    (newChild : Child) (slot : Option Child) : StartTrace :=
  let opts := options.getD defaultRecordingOptions
  match resolveRecordingRes opts with
  | Except.error e => { result := Except.error e, slot := slot, spawns := 0 }
  | Except.ok _ =>
    if spawnOk then
      { result := Except.ok "Recording started", slot := some newChild, spawns := 1 }
    else
      { result := Except.error
          "Failed to start FFmpeg: oserr. Make sure you have granted screen recording permissions.",
        slot := slot, spawns := 0 }

/-- Model of the Rust command `start_camera_recording` (lib.rs lines 930 to
1077); like the screen variant it never checks the slot. -/
def start_camera_recording (options : Option RecordingOptions) (spawnOk : Bool)
    (newChild : Child) (slot : Option Child) : StartTrace :=
  let opts := options.getD defaultRecordingOptions
  match resolveRecordingRes opts with
  | Except.error e => { result := Except.error e, slot := slot, spawns := 0 }
  | Except.ok _ =>
    if spawnOk then
      { result := Except.ok "Camera recording started", slot := some newChild, spawns := 1 }
    else
      { result := Except.error
          "Failed to start camera recording: oserr. Make sure camera is not in use by another app.",
        slot := slot, spawns := 0 }

/-- Model of the Rust command `start_screen_preview` (lib.rs lines 803 to
908); unlike the recording starts, this one rejects a second start while the
slot is occupied. -/
def start_screen_preview (spawnOk stdoutOk : Bool) (newChild : Child)
    (slot : Option Child) : StartTrace :=
  if slot.isSome then
    { result := Except.error "Preview already running", slot := slot, spawns := 0 }
  else if spawnOk = false then
    { result := Except.error "Failed to start preview: oserr", slot := slot, spawns := 0 }
  else if stdoutOk = false then
    { result := Except.error "Failed to get stdout", slot := slot, spawns := 1 }
  else
    { result := Except.ok "Preview started", slot := some newChild, spawns := 1 }

/-- Environment of a stop command: whether the graceful quit-byte write, the
kill, and the wait succeed. -/
structure StopEnv where
  writeOk : Bool
  killOk : Bool
  waitOk : Bool
deriving DecidableEq

/-- Trace of a stop command: the returned result, the slot contents
afterwards, and which signals were attempted. -/
structure StopTrace where
  result : Except String String
  slot : Option Child
  killCalled : Bool
  waitCalled : Bool
deriving DecidableEq

/-- Model of the Rust command `stop_screen_recording` (lib.rs lines 757 to
795): the slot is taken before any signaling, so it is empty afterwards on
every path. -/
def stop_screen_recording (slot : Option Child) (env : StopEnv) : StopTrace :=
  match slot with
  | none =>
    { result := Except.error "No recording in progress", slot := none,
      killCalled := false, waitCalled := false }
  | some child =>
    if child.hasStdin ∧ env.writeOk then
      if env.waitOk then
        { result := Except.ok "Recording stopped", slot := none,
          killCalled := false, waitCalled := true }
      else
        { result := Except.error "Failed to wait for FFmpeg: oserr", slot := none,
          killCalled := false, waitCalled := true }
    else
      if env.killOk then
        if env.waitOk then
          { result := Except.ok "Recording stopped", slot := none,
            killCalled := true, waitCalled := true }
        else
          { result := Except.error "Failed to wait for FFmpeg: oserr", slot := none,
            killCalled := true, waitCalled := true }
      else
        { result := Except.error "Failed to stop recording: oserr", slot := none,
          killCalled := true, waitCalled := false }

/-- Model of the Rust command `stop_camera_recording` (lib.rs lines 1037 to
1077). -/
def stop_camera_recording (slot : Option Child) (env : StopEnv) : StopTrace :=
  match slot with
  | none =>
    { result := Except.error "No camera recording in progress", slot := none,
      killCalled := false, waitCalled := false }
  | some child =>
    if child.hasStdin ∧ env.writeOk then
      if env.waitOk then
        { result := Except.ok "Camera recording stopped", slot := none,
          killCalled := false, waitCalled := true }
      else
        { result := Except.error "Failed to wait for FFmpeg: oserr", slot := none,
          killCalled := false, waitCalled := true }
    else
      if env.killOk then
        if env.waitOk then
          { result := Except.ok "Camera recording stopped", slot := none,
            killCalled := true, waitCalled := true }
        else
          { result := Except.error "Failed to wait for FFmpeg: oserr", slot := none,
            killCalled := true, waitCalled := true }
      else
        { result := Except.error "Failed to stop camera recording: oserr", slot := none,
          killCalled := true, waitCalled := false }

/-- Model of the Rust command `stop_screen_preview` (lib.rs lines 910 to
928). -/
def stop_screen_preview (slot : Option Child) (env : StopEnv) : StopTrace :=
  match slot with
  | none =>
    { result := Except.error "No preview running", slot := none,
      killCalled := false, waitCalled := false }
  | some _ =>
    if env.killOk then
      if env.waitOk then
        { result := Except.ok "Preview stopped", slot := none,
          killCalled := true, waitCalled := true }
      else
        { result := Except.error "Failed to wait for preview: oserr", slot := none,
          killCalled := true, waitCalled := true }
    else
      { result := Except.error "Failed to stop preview: oserr", slot := none,
        killCalled := true, waitCalled := false }

/-- Model of the Rust command `is_recording` (lib.rs lines 797 to 801):
reports whether the slot holds a handle, nothing more. -/
def is_recording (slot : Option Child) : Bool := slot.isSome

/-- Model of the Rust command `is_camera_recording` (lib.rs lines 1079 to
1083). -/
def is_camera_recording (slot : Option Child) : Bool := slot.isSome

/-- One composite-export track, reduced to the fields the synthesized filter
graph depends on. -/
structure Track where
  path : String
  position_x : Int
  position_y : Int
  volume : ℚ
  opacity : ℚ
  width : Int
  height : Int
  z_index : Int
deriving DecidableEq

/-- Filter-graph pad labels appearing in the overlay chain. -/
inductive Pad
  | bg
  | v (i : Nat)
  | tmp (i : Nat)
  | vout
deriving DecidableEq

/-- Rendering of a pad label inside the filter graph. -/
def padName : Pad → String
  | Pad.bg => "bg"
  | Pad.v i => "v" ++ toString i
  | Pad.tmp i => "tmp" ++ toString i
  | Pad.vout => "vout"

/-- One overlay segment of the chain: input pad, overlaid stream,
coordinates, output pad. -/
structure OverlaySeg where
  base : Pad
  top : Pad
  x : Int
  y : Int
  out : Pad
deriving DecidableEq

/-- Rendering of one overlay segment as filter-graph text. -/
def renderOverlaySeg (o : OverlaySeg) : String :=
  "[" ++ padName o.base ++ "][" ++ padName o.top ++ "]overlay=x=" ++ toString o.x
    ++ ":y=" ++ toString o.y ++ "[" ++ padName o.out ++ "]"

/-- Overlay coordinates of a track in the multi-track branch, scaled into the
output canvas. -/
def overlayXY (outW outH cW cH : Int) (t : Track) : Int × Int :=
  let sx := qdiv (qofInt outW) (qofInt cW)
  let sy := qdiv (qofInt outH) (qofInt cH)
  let sw := rustTrunc (qmul (qofInt t.width) sx)
  let sh := rustTrunc (qmul (qofInt t.height) sy)
  (rustTrunc (qsub (qadd (qmul (qofInt t.position_x) sx) (qdiv (qofInt outW) (qofInt 2)))
      (qdiv (qofInt sw) (qofInt 2))),
   rustTrunc (qsub (qadd (qmul (qofInt t.position_y) sy) (qdiv (qofInt outH) (qofInt 2)))
      (qdiv (qofInt sh) (qofInt 2))))

/-- Scaled width and height of a track in the output canvas. -/
def overlayWH (outW outH cW cH : Int) (t : Track) : Int × Int :=
  (rustTrunc (qmul (qofInt t.width) (qdiv (qofInt outW) (qofInt cW))),
   rustTrunc (qmul (qofInt t.height) (qdiv (qofInt outH) (qofInt cH))))

/-- Overlay coordinates used by the single-track override branch. -/
def singleOverlayXY (outW outH cW cH : Int) (t : Track) : Int × Int :=
  (rustTrunc (qsub (qadd (qdiv (qmul (qofInt t.position_x) (qofInt outW)) (qofInt cW))
      (qdiv (qofInt outW) (qofInt 2)))
      (qdiv (qdiv (qmul (qofInt t.width) (qofInt outW)) (qofInt cW)) (qofInt 2))),
   rustTrunc (qsub (qadd (qdiv (qmul (qofInt t.position_y) (qofInt outH)) (qofInt cH))
      (qdiv (qofInt outH) (qofInt 2)))
      (qdiv (qdiv (qmul (qofInt t.height) (qofInt outH)) (qofInt cH)) (qofInt 2))))

/-- The overlay fold: one overlay segment per remaining track, chaining `tmp`
pads and labeling the final segment `vout`. -/
def overlayRest : List (Int × Int) → Nat → List OverlaySeg
  | [], _ => []
  | [xy], i => [{ base := Pad.tmp (i - 1), top := Pad.v i, x := xy.1, y := xy.2,
                  out := Pad.vout }]
  | xy :: next :: rest, i =>
    { base := Pad.tmp (i - 1), top := Pad.v i, x := xy.1, y := xy.2, out := Pad.tmp i }
      :: overlayRest (next :: rest) (i + 1)

/-- The full overlay chain over the scaled coordinates of all sorted tracks,
starting from the prepared base pad. -/
def overlayChain (xys : List (Int × Int)) : List OverlaySeg :=
  match xys with
  | [] => []
  | xy :: rest =>
    { base := Pad.bg, top := Pad.v 0, x := xy.1, y := xy.2, out := Pad.tmp 0 }
      :: overlayRest rest 1

/-- Per-track video filter: scale, optional opacity, pad labeling. -/
def trackVideoFilter (outW outH cW cH : Int) (i : Nat) (t : Track) : String :=
  let wh := overlayWH outW outH cW cH t
  "[" ++ toString i ++ ":v]scale=" ++ toString wh.1 ++ ":" ++ toString wh.2
    ++ ",format=yuva420p,colorchannelmixer=aa=" ++ fmtF64 t.opacity
    ++ "[v" ++ toString i ++ "]"

/-- Per-track audio filter: volume and pad labeling. -/
def trackAudioFilter (i : Nat) (t : Track) : String :=
  "[" ++ toString i ++ ":a]volume=" ++ fmtF64 t.volume ++ "[a" ++ toString i ++ "]"

/-- The amix tail of the audio graph over `n` audio pads. -/
def audioMixTail (n : Nat) : String :=
  if 1 < n then
    ";" ++ String.join ((List.range n).map (fun i => "[a" ++ toString i ++ "]"))
      ++ "amix=inputs=" ++ toString n ++ ":duration=longest[aout]"
  else ";[a0]anull[aout]"

/-- Everything `export_composite_video` synthesizes: the sorted track list,
the overlay segments, the filter graph, and the ffmpeg invocation. -/
structure CompositePlan where
  sorted : List Track
  overlaySegs : List OverlaySeg
  filterText : String
  args : List String
deriving DecidableEq

/-- Resolution-tier handling of `export_composite_video` (lib.rs lines 1248
to 1264): named tiers scale the canvas, unknown tiers are rejected. -/
def compositeTier (canvasW canvasH : Int) (res : Option String) :
    Except String (Int × Int × String) :=
  match res with
  | some "720p" => Except.ok (1280, 720, "2500k")
  | some "1080p" => Except.ok (1920, 1080, "5000k")
  | some "source" => Except.ok (canvasW, canvasH, "8000k")
  | none => Except.ok (canvasW, canvasH, "8000k")
  | some r => Except.error ("Invalid resolution: " ++ r)

/-- The synthesis core of `export_composite_video` (lib.rs lines 1222 to
1425): validate, stable-sort the tracks ascending by z-index, build the
overlay chain, the filter graph and the argument list. -/
def export_composite_plan (tracks : List Track) (canvasW canvasH : Int)
    (exportResolution : Option (Option String)) (outputPath : String) :
    Except String CompositePlan :=
  if tracks.isEmpty then Except.error "No tracks to export"
  else
    let resOpt : Option String :=
      match exportResolution with
      | none => some "source"
      | some r => r
    match compositeTier canvasW canvasH resOpt with
    | Except.error e => Except.error e
    | Except.ok (outW, outH, bitrate) =>
      let sorted := List.insertionSort (fun a b => a.z_index ≤ b.z_index) tracks
      let bgPart := "color=c=black:s=" ++ toString outW ++ "x" ++ toString outH
        ++ ":d=30[bg]"
      let parts := bgPart :: (sorted.enum.flatMap (fun p =>
        [trackVideoFilter outW outH canvasW canvasH p.1 p.2,
         trackAudioFilter p.1 p.2]))
      let chain :=
        match sorted with
        | [t] => [{ base := Pad.bg, top := Pad.v 0,
                    x := (singleOverlayXY outW outH canvasW canvasH t).1,
                    y := (singleOverlayXY outW outH canvasW canvasH t).2,
                    out := Pad.vout }]
        | _ => overlayChain (sorted.map (overlayXY outW outH canvasW canvasH))
      let filterText := String.intercalate ";" parts ++ ";"
        ++ String.intercalate ";" (chain.map renderOverlaySeg)
        ++ audioMixTail sorted.length
      let args := ["-y"] ++ sorted.flatMap (fun t => ["-i", t.path])
        ++ ["-filter_complex", filterText, "-map", "[vout]", "-map", "[aout]",
            "-c:v", "libx264", "-preset", "fast", "-b:v", bitrate,
            "-c:a", "aac", "-b:a", "192k", "-pix_fmt", "yuv420p", outputPath]
      Except.ok { sorted := sorted, overlaySegs := chain, filterText := filterText,
                  args := args }

/-- Model of the Rust command `export_composite_video`: the plan with a
spawn, or a validation error with no spawn. -/
def export_composite_video (tracks : List Track) (canvasW canvasH : Int)
    (exportResolution : Option (Option String)) (outputPath : String)
    (spawnOk exitSuccess : Bool) : Except String String × Nat :=
  match export_composite_plan tracks canvasW canvasH exportResolution outputPath with
  | Except.error e => (Except.error e, 0)
  | Except.ok _ =>
    if spawnOk then
      if exitSuccess then (Except.ok outputPath, 1)
      else (Except.error "FFmpeg exited with status: nonzero", 1)
    else (Except.error "Failed to start FFmpeg: oserr", 0)

/-- The two-byte JPEG start-of-image marker. -/
def jpegStart : List Nat := [255, 216]

/-- The two-byte JPEG end-of-image marker. -/
def jpegEnd : List Nat := [255, 217]

/-- Index of the first occurrence of the two-byte marker `a b` in a byte
list, as the windowed search of the preview demuxer finds it. -/
def findMarker (a b : Nat) : List Nat → Option Nat
  | x :: y :: rest =>
    if x = a ∧ y = b then some 0
    else Option.map (fun n => n + 1) (findMarker a b (y :: rest))
  | _ => none

/-- One round of demuxer buffer processing, fueled for structural recursion:
drop bytes before a start marker and emit a frame for every complete
start-to-end span, keeping the unfinished tail as the new buffer. -/
def processBufferF : Nat → List Nat → List Nat × List (List Nat)
  | 0, buf => (buf, [])
  | fuel + 1, buf =>
    match findMarker 255 216 buf with
    | none => (buf, [])
    | some s =>
      let buf2 := buf.drop s
      match findMarker 255 217 buf2 with
      | none => (buf2, [])
      | some e =>
        let next := processBufferF fuel (buf2.drop (e + 2))
        (next.1, buf2.take (e + 2) :: next.2)

/-- Demuxer buffer processing with enough fuel to consume the whole buffer. -/
def processBuffer (buf : List Nat) : List Nat × List (List Nat) :=
  processBufferF buf.length buf

/-- The demuxer read loop (lib.rs lines 862 to 904) over a list of reads:
append each chunk to the buffer and process it; end of stream stops the loop
and the remaining buffer is discarded, never emitted. -/
def runReads : List Nat → List (List Nat) → List (List Nat)
  | _, [] => []
  | buf, c :: cs =>
    let step := processBuffer (buf ++ c)
    step.2 ++ runReads step.1 cs

/-- All frames the demuxer emits over a sequence of reads, starting from an
empty buffer. -/
def demuxFrames (chunks : List (List Nat)) : List (List Nat) := runReads [] chunks

def okArgs (x : Except String (List String)) : List String :=
  (Except.toOption x).getD []

def sampleTracks : List Track :=
  [{ path := "hi.mp4", position_x := 0, position_y := 0, volume := qofInt 1,
     opacity := qofInt 1, width := 1920, height := 1080, z_index := 1 },
   { path := "lo.mp4", position_x := 0, position_y := 0, volume := qofInt 1,
     opacity := qofInt 1, width := 1920, height := 1080, z_index := 0 }]

def samplePlan : CompositePlan :=
  (Except.toOption (export_composite_plan sampleTracks 1920 1080 none "o.mp4")).getD
    { sorted := [], overlaySegs := [], filterText := "", args := [] }

theorem qden_ne (a : ℚ) : ((a.den : ℚ)) ≠ 0 := by
  exact_mod_cast a.den_pos.ne'

theorem qofInt_eq (i : Int) : qofInt i = (i : ℚ) := by
  unfold qofInt
  rw [Rat.divInt_eq_div]
  simp

theorem qadd_eq (a b : ℚ) : qadd a b = a + b := by
  conv_rhs => rw [← Rat.num_div_den a, ← Rat.num_div_den b,
    div_add_div _ _ (qden_ne a) (qden_ne b)]
  unfold qadd
  rw [Rat.divInt_eq_div]
  push_cast
  ring

theorem qsub_eq (a b : ℚ) : qsub a b = a - b := by
  conv_rhs => rw [← Rat.num_div_den a, ← Rat.num_div_den b,
    div_sub_div _ _ (qden_ne a) (qden_ne b)]
  unfold qsub
  rw [Rat.divInt_eq_div]
  push_cast
  ring

theorem qmul_eq (a b : ℚ) : qmul a b = a * b := by
  conv_rhs => rw [← Rat.num_div_den a, ← Rat.num_div_den b, div_mul_div_comm]
  unfold qmul
  rw [Rat.divInt_eq_div]
  push_cast
  ring

theorem qneg_eq (q : ℚ) : qneg q = - q := by
  conv_rhs => rw [← Rat.num_div_den q]
  unfold qneg
  rw [Rat.divInt_eq_div]
  push_cast
  ring

theorem qdiv_eq (a b : ℚ) : qdiv a b = a / b := by
  by_cases hb : b = 0
  · subst hb
    unfold qdiv
    simp
  · have hbn : ((b.num : ℚ)) ≠ 0 := by
      exact_mod_cast Rat.num_ne_zero.mpr hb
    conv_rhs => rw [← Rat.num_div_den a, ← Rat.num_div_den b]
    unfold qdiv
    rw [Rat.divInt_eq_div]
    push_cast
    rw [div_div_div_comm]
    field_simp
    left
    ring

theorem qfloor_eq (q : ℚ) : qfloor q = ⌊q⌋ := by
  unfold qfloor
  refine le_antisymm ?_ ?_
  · exact Int.le_floor.mpr (Rat.le_floor.mp le_rfl)
  · exact Rat.le_floor.mpr (Int.floor_le q)

theorem rustTrunc_eq (q : ℚ) : rustTrunc q = if 0 ≤ q then ⌊q⌋ else ⌈q⌉ := by
  unfold rustTrunc
  rw [qfloor_eq, qneg_eq, qfloor_eq]
  by_cases h : 0 ≤ q
  · rw [if_pos (Rat.num_nonneg.mpr h), if_pos h]
  · rw [if_neg (fun hn => h (Rat.num_nonneg.mp hn)), if_neg h, Int.floor_neg, neg_neg]

theorem rustTrunc_nonneg (q : ℚ) (h : 0 ≤ q) : rustTrunc q = ⌊q⌋ := by
  rw [rustTrunc_eq, if_pos h]

theorem rustMod_eq (a b : ℚ) : rustMod a b = a - b * (rustTrunc (qdiv a b) : ℚ) := by
  unfold rustMod
  rw [qsub_eq, qmul_eq, qofInt_eq]

theorem roundHalfEven_intCast (k : Int) : roundHalfEven ((k : ℚ)) = k := by
  have hf : qfloor ((k : ℚ)) = k := by rw [qfloor_eq, Int.floor_intCast]
  have hr : qsub ((k : ℚ)) (qofInt k) = 0 := by
    rw [qsub_eq, qofInt_eq, sub_self]
  simp only [roundHalfEven, hf, hr]
  norm_num

theorem floorq_natCast_div (a b : ℕ) :
    ⌊((a : ℚ) / (b : ℚ))⌋ = ((a / b : ℕ) : ℤ) := by
  have h := Rat.floor_intCast_div_natCast (a : ℤ) b
  have h2 : (((a : ℤ) : ℚ)) = (a : ℚ) := by push_cast; rfl
  rw [h2] at h
  rw [h]
  exact (Int.ofNat_div a b).symm

theorem u32cast_ofNat (m : ℕ) (h : m ≤ 4294967295) : u32cast ((m : ℕ) : ℤ) = m := by
  unfold u32cast
  rw [Int.toNat_natCast]
  exact min_eq_left h

theorem rustMod_div1000 (n M : ℕ) (hM : 0 < M) :
    rustMod ((n : ℚ) / 1000) (qofInt (M : ℤ)) = ((n % (1000 * M) : ℕ) : ℚ) / 1000 := by
  have hMq : ((M : ℚ)) ≠ 0 := by
    exact_mod_cast hM.ne'
  have h1 : qdiv ((n : ℚ) / 1000) (qofInt (M : ℤ)) = (n : ℚ) / ((1000 * M : ℕ) : ℚ) := by
    rw [qdiv_eq, qofInt_eq, div_div]
    push_cast
    ring_nf
  have h2 : rustTrunc (qdiv ((n : ℚ) / 1000) (qofInt (M : ℤ)))
      = ((n / (1000 * M) : ℕ) : ℤ) := by
    rw [h1, rustTrunc_nonneg _ (by positivity), floorq_natCast_div]
  rw [rustMod_eq, h2, qofInt_eq]
  have key : ((1000 * M : ℕ) : ℚ) * ((n / (1000 * M) : ℕ) : ℚ)
      + ((n % (1000 * M) : ℕ) : ℚ) = (n : ℚ) := by
    exact_mod_cast Nat.div_add_mod n (1000 * M)
  have hc : ((((n / (1000 * M) : ℕ) : ℤ)) : ℚ) = ((n / (1000 * M) : ℕ) : ℚ) :=
    Int.cast_natCast _
  have hc2 : (((M : ℤ)) : ℚ) = (M : ℚ) := Int.cast_natCast M
  rw [hc, hc2]
  have key2 : (1000 : ℚ) * (M : ℚ) * ((n / (1000 * M) : ℕ) : ℚ)
      + ((n % (1000 * M) : ℕ) : ℚ) = (n : ℚ) := by
    push_cast [Nat.cast_mul] at key
    linarith [key]
  linear_combination (-1/1000 : ℚ) * key2

theorem fmtHours_millis (n : ℕ) (hb : n < 15461882265600000) :
    fmtHours ((n : ℚ) / 1000) = n / 3600000 := by
  unfold fmtHours
  have h1 : qdiv ((n : ℚ) / 1000) (qofInt 3600) = (n : ℚ) / ((3600000 : ℕ) : ℚ) := by
    rw [qdiv_eq, qofInt_eq, div_div]
    norm_num
  rw [h1, qfloor_eq, floorq_natCast_div]
  exact u32cast_ofNat _ (by omega)

theorem fmtMinutes_millis (n : ℕ) :
    fmtMinutes ((n : ℚ) / 1000) = (n % 3600000) / 60000 := by
  unfold fmtMinutes
  have h0 : rustMod ((n : ℚ) / 1000) (qofInt 3600) = ((n % 3600000 : ℕ) : ℚ) / 1000 := by
    have := rustMod_div1000 n 3600 (by norm_num)
    simpa using this
  have h1 : qdiv (((n % 3600000 : ℕ) : ℚ) / 1000) (qofInt 60)
      = ((n % 3600000 : ℕ) : ℚ) / ((60000 : ℕ) : ℚ) := by
    rw [qdiv_eq, qofInt_eq, div_div]
    norm_num
  rw [h0, h1, qfloor_eq, floorq_natCast_div]
  refine u32cast_ofNat _ ?_
  have : (n % 3600000) / 60000 < 60 := by omega
  omega

theorem fmtSecsMillis_millis (n : ℕ) :
    fmtSecsMillis ((n : ℚ) / 1000) = ((n % 60000 : ℕ) : ℤ) := by
  unfold fmtSecsMillis fmtSecsQ
  have h0 : rustMod ((n : ℚ) / 1000) (qofInt 60) = ((n % 60000 : ℕ) : ℚ) / 1000 := by
    have := rustMod_div1000 n 60 (by norm_num)
    simpa using this
  have h1 : qmul (qofInt 1000) (((n % 60000 : ℕ) : ℚ) / 1000)
      = ((((n % 60000 : ℕ) : ℤ)) : ℚ) := by
    rw [qmul_eq, qofInt_eq, Int.cast_natCast]
    have h1000 : (((1000 : ℤ) : ℚ)) = (1000 : ℚ) := by norm_num
    rw [h1000, mul_comm]
    exact div_mul_cancel₀ _ (by norm_num)
  rw [h0, h1, roundHalfEven_intCast]

theorem parsed_time_millis (n : ℕ) (hb : n < 15461882265600000) :
    parsed_time ((n : ℚ) / 1000) = (n : ℚ) / 1000 := by
  unfold parsed_time
  rw [fmtHours_millis n hb, fmtMinutes_millis n, fmtSecsMillis_millis n]
  simp only [qadd_eq, qdiv_eq, qofInt_eq, Int.cast_mul, Int.cast_natCast, Int.cast_ofNat]
  have e1 : ((3600000 : ℕ) : ℚ) * ((n / 3600000 : ℕ) : ℚ) + ((n % 3600000 : ℕ) : ℚ)
      = (n : ℚ) := by exact_mod_cast Nat.div_add_mod n 3600000
  have e2 : ((60000 : ℕ) : ℚ) * (((n % 3600000) / 60000 : ℕ) : ℚ)
      + (((n % 3600000) % 60000 : ℕ) : ℚ) = ((n % 3600000 : ℕ) : ℚ) := by
    exact_mod_cast Nat.div_add_mod (n % 3600000) 60000
  have e3 : (((n % 3600000) % 60000 : ℕ) : ℚ) = ((n % 60000 : ℕ) : ℚ) := by
    exact_mod_cast congrArg (fun x : ℕ => x) (Nat.mod_mod_of_dvd n (by norm_num : (60000 : ℕ) ∣ 3600000))
  push_cast at e1 e2 e3
  linarith [e1, e2, e3]

/-- Claim C9, counterexample: the start time 1/2500 s (an exact `f64` value)
in the range `0 ≤ start < end` formats as `00:00:00.000`, which parses back
to 0, not to the original start; the universally quantified round-trip of the
spec fails for sub-millisecond starts. -/
theorem c9_roundtrip_counterexample :
    (0 : ℚ) ≤ Rat.divInt 1 2500 ∧ Rat.divInt 1 2500 < 1
      ∧ format_time (Rat.divInt 1 2500) = "00:00:00.000"
      ∧ parsed_time (Rat.divInt 1 2500) ≠ Rat.divInt 1 2500 := by
  decide

/-- Claim C9, amended: every start time that is a whole number of
milliseconds (below the saturation bound of the `u32` hours field), with some
end above it, round-trips through the synthesized `HH:MM:SS.mmm` timestamp:
hours times 3600 plus minutes times 60 plus the seconds field equals the
original start. -/
theorem c9_roundtrip_millis (s e : ℚ) (n : ℕ)
    (hs : s = Rat.divInt (Int.ofNat n) 1000)
    (hb : n < 15461882265600000)
    (hlt : s < e) :
    parsed_time s = s := by
  subst hs
  have hdiv : (Rat.divInt (Int.ofNat n) 1000 : ℚ) = (n : ℚ) / 1000 := by
    rw [Rat.divInt_eq_div]
    push_cast
    rfl
  rw [hdiv]
  exact parsed_time_millis n hb

/-- Witness for claim C9: the amended round-trip at start 2.5 s, end 3 s. -/
theorem c9_roundtrip_millis_witness :
    parsed_time (Rat.divInt (Int.ofNat 2500) 1000) = Rat.divInt (Int.ofNat 2500) 1000 :=
  c9_roundtrip_millis (Rat.divInt (Int.ofNat 2500) 1000) 3 2500 rfl (by decide) (by decide)

/-- Claim C6, confirmed: the full argument list of `trim_video` per tier —
tier `720p` re-encodes through a `scale=1280:720` filter at bitrate `2500k`
with no stream-copy flag; tier `source` and an absent tier stream-copy with
no scale filter; trim of 0 s to 5 s at `720p` and of 2.5 s to 10 s at
`source` (start `00:00:02.500`, duration `7.5`) behave as the spec scenarios
state. -/
theorem c6_trim_tier_policy :
    (∀ (i o : String) (s e : ℚ),
      trim_args i o s e (some (some "720p"))
        = Except.ok (["-y", "-ss", format_time s, "-i", i, "-t", fmtF64 (qsub e s),
            "-vf", "scale=1280:720", "-c:v", "libx264", "-preset", "fast", "-b:v", "2500k",
            "-avoid_negative_ts", "make_zero", o]))
  ∧ (∀ (i o : String) (s e : ℚ),
      trim_args i o s e (some (some "source"))
        = Except.ok (["-y", "-ss", format_time s, "-i", i, "-t", fmtF64 (qsub e s),
            "-c", "copy", "-avoid_negative_ts", "make_zero", o]))
  ∧ (∀ (i o : String) (s e : ℚ),
      trim_args i o s e none
        = Except.ok (["-y", "-ss", format_time s, "-i", i, "-t", fmtF64 (qsub e s),
            "-c", "copy", "-avoid_negative_ts", "make_zero", o]))
  ∧ ("-vf" ∈ okArgs (trim_args "in.mp4" "out.mp4" (qofInt 0) (qofInt 5) (some (some "720p")))
      ∧ "scale=1280:720" ∈ okArgs (trim_args "in.mp4" "out.mp4" (qofInt 0) (qofInt 5) (some (some "720p")))
      ∧ "2500k" ∈ okArgs (trim_args "in.mp4" "out.mp4" (qofInt 0) (qofInt 5) (some (some "720p")))
      ∧ "copy" ∉ okArgs (trim_args "in.mp4" "out.mp4" (qofInt 0) (qofInt 5) (some (some "720p"))))
  ∧ ("00:00:02.500" ∈ okArgs (trim_args "in.mp4" "out.mp4" (Rat.divInt 5 2) (qofInt 10) (some (some "source")))
      ∧ "7.5" ∈ okArgs (trim_args "in.mp4" "out.mp4" (Rat.divInt 5 2) (qofInt 10) (some (some "source")))
      ∧ "copy" ∈ okArgs (trim_args "in.mp4" "out.mp4" (Rat.divInt 5 2) (qofInt 10) (some (some "source")))
      ∧ "-vf" ∉ okArgs (trim_args "in.mp4" "out.mp4" (Rat.divInt 5 2) (qofInt 10) (some (some "source")))
      ∧ "scale=1280:720" ∉ okArgs (trim_args "in.mp4" "out.mp4" (Rat.divInt 5 2) (qofInt 10) (some (some "source"))))
    := by
  refine ⟨fun i o s e => rfl, fun i o s e => rfl, fun i o s e => rfl, ?_, ?_⟩
  · decide
  · decide

theorem tierPolicy_unknown (r : String) (h1 : r ≠ "720p") (h2 : r ≠ "1080p")
    (h3 : r ≠ "source") :
    tierPolicy (some r) = Except.error ("Invalid resolution: " ++ r) := by
  unfold tierPolicy
  split <;> simp_all

theorem compositeTier_unknown (cW cH : Int) (r : String) (h1 : r ≠ "720p")
    (h2 : r ≠ "1080p") (h3 : r ≠ "source") :
    compositeTier cW cH (some r) = Except.error ("Invalid resolution: " ++ r) := by
  unfold compositeTier
  split <;> simp_all

theorem isEmpty_false_of_ne_nil {α : Type} {l : List α} (h : l ≠ []) :
    l.isEmpty = false := by
  cases l with
  | nil => exact absurd rfl h
  | cons a t => rfl

/-- Claim C2, counterexample: `trim_video` with start 5 and end 2 performs no
time-range validation — it succeeds, spawns once, and passes `-3` as the
duration argument. -/
theorem c2_validation_counterexample :
    trim_video "in.mp4" "out.mp4" (qofInt 5) (qofInt 2) (some (some "source")) true true
      = (Except.ok "out.mp4", 1)
    ∧ "-3" ∈ okArgs (trim_args "in.mp4" "out.mp4" (qofInt 5) (qofInt 2) (some (some "source"))) := by
  decide

/-- Claim C2, amended: trim and composite export reject an unknown tier
before any spawn; composite export and concatenation reject an empty list
before any spawn and before the scratch directory is created; but
concatenation treats an unknown tier exactly like `source` (its segment
commands spawn normally, two spawns in the example), and no operation
validates the time range. -/
theorem c2_validation_amended :
    (∀ (i o : String) (s e : ℚ) (r : String), r ≠ "720p" → r ≠ "1080p" → r ≠ "source" →
      ∀ (sp ex : Bool),
        trim_video i o s e (some (some r)) sp ex
          = (Except.error ("Invalid resolution: " ++ r), 0))
  ∧ (∀ (tracks : List Track) (cW cH : Int) (o : String) (r : String),
      r ≠ "720p" → r ≠ "1080p" → r ≠ "source" → tracks ≠ [] → ∀ (sp ex : Bool),
        export_composite_video tracks cW cH (some (some r)) o sp ex
          = (Except.error ("Invalid resolution: " ++ r), 0))
  ∧ (∀ (cW cH : Int) (o : String) (eo : Option (Option String)) (sp ex : Bool),
      export_composite_video [] cW cH eo o sp ex = (Except.error "No tracks to export", 0))
  ∧ (∀ (o : String) (eo : Option (Option String)) (pip : Option PipTrack) (pid : Nat)
        (env : ConcatEnv),
      concatenate_clips [] o eo pip pid env
        = { result := Except.error "No clips provided for concatenation", spawned := [],
            wroteDoc := none, dirCreated := false, cleanupAttempted := false })
  ∧ (∀ (pid : Nat) (i : Nat) (c : ClipSeg) (r : String), r ≠ "720p" → r ≠ "1080p" →
      segmentArgs pid (some r) i c = segmentArgs pid (some "source") i c)
  ∧ (∀ (i o : String) (s e : ℚ), (trim_args i o s e (some (some "source"))).isOk = true)
  ∧ ((concatenate_clips [⟨"a.mp4", qofInt 0, qofInt 1⟩] "out.mp4" (some (some "4k")) none 1
        ⟨true, [], true, CmdOutcome.exitOk, CmdOutcome.exitOk, true⟩).result
          = Except.ok "out.mp4"
      ∧ (concatenate_clips [⟨"a.mp4", qofInt 0, qofInt 1⟩] "out.mp4" (some (some "4k")) none 1
        ⟨true, [], true, CmdOutcome.exitOk, CmdOutcome.exitOk, true⟩).spawned.length = 2) := by
  refine ⟨?_, ?_, ?_, ?_, ?_, ?_, ?_⟩
  · intro i o s e r h1 h2 h3 sp ex
    simp only [trim_video, trim_args]
    rw [tierPolicy_unknown r h1 h2 h3]
  · intro tracks cW cH o r h1 h2 h3 ht sp ex
    simp only [export_composite_video, export_composite_plan,
      isEmpty_false_of_ne_nil ht]
    rw [compositeTier_unknown cW cH r h1 h2 h3]
    rfl
  · intro cW cH o eo sp ex
    rfl
  · intro o eo pip pid env
    rfl
  · intro pid i c r h1 h2
    simp only [segmentArgs]
    split <;> simp_all
  · intro i o s e
    rfl
  · exact ⟨by decide, by decide⟩

/-- Witness for claim C2: the unknown tier `4k` rejected by trim and
composite export, and ignored by the per-segment command synthesis of
concatenation. -/
theorem c2_validation_amended_witness :
    trim_video "in.mp4" "out.mp4" (qofInt 0) (qofInt 5) (some (some "4k")) true true
      = (Except.error "Invalid resolution: 4k", 0)
    ∧ export_composite_video [⟨"A", 0, 0, qofInt 1, qofInt 1, 1920, 1080, 0⟩] 1920 1080
        (some (some "4k")) "o.mp4" true true = (Except.error "Invalid resolution: 4k", 0)
    ∧ segmentArgs 1 (some "4k") 0 ⟨"a.mp4", qofInt 0, qofInt 1⟩
        = segmentArgs 1 (some "source") 0 ⟨"a.mp4", qofInt 0, qofInt 1⟩ :=
  ⟨c2_validation_amended.1 "in.mp4" "out.mp4" (qofInt 0) (qofInt 5) "4k"
      (by decide) (by decide) (by decide) true true,
   c2_validation_amended.2.1 [⟨"A", 0, 0, qofInt 1, qofInt 1, 1920, 1080, 0⟩] 1920 1080
      "o.mp4" "4k" (by decide) (by decide) (by decide) (by decide) true true,
   c2_validation_amended.2.2.2.2.1 1 0 ⟨"a.mp4", qofInt 0, qofInt 1⟩ "4k"
      (by decide) (by decide)⟩

theorem stop_screen_slot_none (slot : Option Child) (env : StopEnv) :
    (stop_screen_recording slot env).slot = none := by
  rcases env with ⟨w, k, wt⟩
  rcases slot with _ | ⟨p, hs, ex⟩
  · rfl
  · cases hs <;> cases w <;> cases k <;> cases wt <;> simp [stop_screen_recording]

theorem stop_camera_slot_none (slot : Option Child) (env : StopEnv) :
    (stop_camera_recording slot env).slot = none := by
  rcases env with ⟨w, k, wt⟩
  rcases slot with _ | ⟨p, hs, ex⟩
  · rfl
  · cases hs <;> cases w <;> cases k <;> cases wt <;> simp [stop_camera_recording]

theorem stop_preview_slot_none (slot : Option Child) (env : StopEnv) :
    (stop_screen_preview slot env).slot = none := by
  rcases env with ⟨w, k, wt⟩
  rcases slot with _ | ⟨p, hs, ex⟩
  · rfl
  · cases k <;> cases wt <;> simp [stop_screen_preview]

/-- Claim C1, counterexample: starting a screen or camera recording while the
slot is occupied does not return an already-running error — it spawns a
second process and overwrites the slot with the new handle. -/
theorem c1_counterexample :
    start_screen_recording (some ⟨"720p", none, none, none⟩) true ⟨1, true, false⟩
        (some ⟨0, true, false⟩)
      = { result := Except.ok "Recording started", slot := some ⟨1, true, false⟩,
          spawns := 1 }
    ∧ start_camera_recording (some ⟨"720p", none, none, none⟩) true ⟨1, true, false⟩
        (some ⟨0, true, false⟩)
      = { result := Except.ok "Camera recording started", slot := some ⟨1, true, false⟩,
          spawns := 1 } := by
  decide

/-- Claim C1, amended: only the preview start checks the slot — on an
occupied slot it fails with `Preview already running`, spawns nothing and
leaves the slot unchanged — while the screen and camera starts validate the
options, spawn unconditionally and overwrite the slot. -/
theorem c1_start_amended :
    (∀ (sp so : Bool) (c : Child) (slot : Option Child), slot.isSome = true →
      start_screen_preview sp so c slot
        = { result := Except.error "Preview already running", slot := slot, spawns := 0 })
  ∧ (∀ (opts : Option RecordingOptions) (c : Child) (slot : Option Child)
        (v : Int × Int × String),
      resolveRecordingRes (opts.getD defaultRecordingOptions) = Except.ok v →
      start_screen_recording opts true c slot
        = { result := Except.ok "Recording started", slot := some c, spawns := 1 })
  ∧ (∀ (opts : Option RecordingOptions) (c : Child) (slot : Option Child)
        (v : Int × Int × String),
      resolveRecordingRes (opts.getD defaultRecordingOptions) = Except.ok v →
      start_camera_recording opts true c slot
        = { result := Except.ok "Camera recording started", slot := some c, spawns := 1 }) := by
  refine ⟨?_, ?_, ?_⟩
  · intro sp so c slot h
    unfold start_screen_preview
    rw [if_pos h]
  · intro opts c slot v h
    simp only [start_screen_recording]
    rw [h]
    simp
  · intro opts c slot v h
    simp only [start_camera_recording]
    rw [h]
    simp

/-- Witness for claim C1: preview start refused on an occupied slot; screen
start succeeding on an empty slot. -/
theorem c1_start_amended_witness :
    start_screen_preview true true ⟨1, true, false⟩ (some ⟨0, true, false⟩)
      = { result := Except.error "Preview already running",
          slot := some ⟨0, true, false⟩, spawns := 0 }
    ∧ start_screen_recording (some ⟨"1080p", none, none, none⟩) true ⟨1, true, false⟩ none
      = { result := Except.ok "Recording started", slot := some ⟨1, true, false⟩,
          spawns := 1 } :=
  ⟨c1_start_amended.1 true true ⟨1, true, false⟩ (some ⟨0, true, false⟩) rfl,
   c1_start_amended.2.1 (some ⟨"1080p", none, none, none⟩) ⟨1, true, false⟩ none
     (1920, 1080, "5000k") rfl⟩

/-- Claim C5, confirmed: every stop command fails with its no-process error
exactly when the slot is empty (attempting no signal), and on an occupied
slot every combination of write, kill and wait outcomes leaves the slot empty
afterwards. -/
theorem c5_stop_semantics (slot : Option Child) (env : StopEnv) :
    ((stop_screen_recording slot env).result = Except.error "No recording in progress"
        ↔ slot = none)
    ∧ (stop_screen_recording slot env).slot = none
    ∧ (slot = none → (stop_screen_recording slot env).killCalled = false
        ∧ (stop_screen_recording slot env).waitCalled = false)
    ∧ ((stop_camera_recording slot env).result
          = Except.error "No camera recording in progress" ↔ slot = none)
    ∧ (stop_camera_recording slot env).slot = none
    ∧ (slot = none → (stop_camera_recording slot env).killCalled = false
        ∧ (stop_camera_recording slot env).waitCalled = false)
    ∧ ((stop_screen_preview slot env).result = Except.error "No preview running"
        ↔ slot = none)
    ∧ (stop_screen_preview slot env).slot = none
    ∧ (slot = none → (stop_screen_preview slot env).killCalled = false
        ∧ (stop_screen_preview slot env).waitCalled = false) := by
  rcases env with ⟨w, k, wt⟩
  rcases slot with _ | ⟨p, hs, ex⟩
  · simp [stop_screen_recording, stop_camera_recording, stop_screen_preview]
  · cases hs <;> cases w <;> cases k <;> cases wt <;>
      simp [stop_screen_recording, stop_camera_recording, stop_screen_preview]

/-- Witness for claim C5: stop on an empty slot errors; stop on an occupied
slot with failing write and kill still clears the slot. -/
theorem c5_stop_semantics_witness :
    (stop_screen_recording none ⟨true, true, true⟩).result
      = Except.error "No recording in progress"
    ∧ (stop_screen_recording (some ⟨0, true, false⟩) ⟨false, false, true⟩).slot = none :=
  ⟨(c5_stop_semantics none ⟨true, true, true⟩).1.mpr rfl,
   (c5_stop_semantics (some ⟨0, true, false⟩) ⟨false, false, true⟩).2.1⟩

/-- Claim C10, confirmed: the status queries return exactly the occupancy of
the slot and never observe the process — a handle whose process already
exited still reports running — a successful start makes the status true and
any stop makes it false. -/
theorem c10_status_slot_only :
    (∀ (slot : Option Child), is_recording slot = slot.isSome
        ∧ is_camera_recording slot = slot.isSome)
  ∧ (∀ (p : Nat) (st : Bool), is_recording (some ⟨p, st, true⟩) = true
        ∧ is_camera_recording (some ⟨p, st, true⟩) = true)
  ∧ (∀ (opts : Option RecordingOptions) (sp : Bool) (c : Child) (slot : Option Child)
        (msg : String),
      (start_screen_recording opts sp c slot).result = Except.ok msg →
      is_recording (start_screen_recording opts sp c slot).slot = true)
  ∧ (∀ (slot : Option Child) (env : StopEnv),
      is_recording (stop_screen_recording slot env).slot = false)
  ∧ (∀ (opts : Option RecordingOptions) (sp : Bool) (c : Child) (slot : Option Child)
        (msg : String),
      (start_camera_recording opts sp c slot).result = Except.ok msg →
      is_camera_recording (start_camera_recording opts sp c slot).slot = true)
  ∧ (∀ (slot : Option Child) (env : StopEnv),
      is_camera_recording (stop_camera_recording slot env).slot = false) := by
  refine ⟨fun slot => ⟨rfl, rfl⟩, fun p st => ⟨rfl, rfl⟩, ?_, ?_, ?_, ?_⟩
  · intro opts sp c slot msg h
    simp only [start_screen_recording] at h ⊢
    cases hres : resolveRecordingRes (opts.getD defaultRecordingOptions) with
    | error e =>
      rw [hres] at h
      simp at h
    | ok v =>
      rw [hres] at h
      cases sp
      · simp at h
      · simp [is_recording]
  · intro slot env
    simp [is_recording, stop_screen_slot_none]
  · intro opts sp c slot msg h
    simp only [start_camera_recording] at h ⊢
    cases hres : resolveRecordingRes (opts.getD defaultRecordingOptions) with
    | error e =>
      rw [hres] at h
      simp at h
    | ok v =>
      rw [hres] at h
      cases sp
      · simp at h
      · simp [is_camera_recording]
  · intro slot env
    simp [is_camera_recording, stop_camera_slot_none]

/-- Witness for claim C10: a handle with `exited` set still reports running,
and the status is true right after a successful start. -/
theorem c10_status_slot_only_witness :
    is_recording (some ⟨7, true, true⟩) = true
    ∧ is_recording (start_screen_recording (some ⟨"720p", none, none, none⟩) true
        ⟨1, true, true⟩ none).slot = true :=
  ⟨(c10_status_slot_only.2.1 7 true).1,
   c10_status_slot_only.2.2.1 (some ⟨"720p", none, none, none⟩) true ⟨1, true, true⟩ none
     "Recording started" rfl⟩

theorem segLoop_spawnFailed (pid : Nat) (resOpt : Option String)
    (outcomes : List CmdOutcome) :
    ∀ (clips : List ClipSeg) (i j : Nat),
      (segLoop pid resOpt outcomes i clips).2 = SegLoopResult.spawnFailed j →
      outcomes.getD j CmdOutcome.exitOk = CmdOutcome.spawnErr
        ∧ i ≤ j ∧ j < i + clips.length := by
  intro clips
  induction clips with
  | nil =>
    intro i j h
    simp [segLoop] at h
  | cons c rest ih =>
    intro i j h
    simp only [segLoop] at h
    cases hoc : outcomes.getD i CmdOutcome.exitOk with
    | spawnErr =>
      rw [hoc] at h
      simp only at h
      cases h
      exact ⟨hoc, le_rfl, by simp⟩
    | exitFail =>
      rw [hoc] at h
      simp at h
    | exitOk =>
      rw [hoc] at h
      simp only at h
      obtain ⟨h1, h2, h3⟩ := ih (i + 1) j h
      exact ⟨h1, by omega, by simp; omega⟩

theorem segLoop_all_ok (pid : Nat) (resOpt : Option String)
    (outcomes : List CmdOutcome) :
    ∀ (clips : List ClipSeg) (i : Nat),
      (∀ j, j < clips.length → outcomes.getD (i + j) CmdOutcome.exitOk = CmdOutcome.exitOk) →
      segLoop pid resOpt outcomes i clips
        = ((clips.enumFrom i).map (fun p => segmentArgs pid resOpt p.1 p.2),
           SegLoopResult.ok) := by
  intro clips
  induction clips with
  | nil =>
    intro i h
    rfl
  | cons c rest ih =>
    intro i h
    have h0 : outcomes.getD i CmdOutcome.exitOk = CmdOutcome.exitOk := by
      have := h 0 (by simp)
      simpa using this
    have hrest : ∀ j, j < rest.length →
        outcomes.getD (i + 1 + j) CmdOutcome.exitOk = CmdOutcome.exitOk := by
      intro j hj
      have := h (j + 1) (by simp; omega)
      have he : i + (j + 1) = i + 1 + j := by omega
      rw [he] at this
      exact this
    simp only [segLoop, h0, ih (i + 1) hrest, List.enumFrom, List.map]

theorem segmentArgs_getD_one (pid : Nat) (resOpt : Option String) (i : Nat)
    (c : ClipSeg) : (segmentArgs pid resOpt i c).getD 1 "" = "-ss" := by
  simp only [segmentArgs]
  split <;> rfl

/-- Claim C4, counterexample: a spawn failure in the segment loop is
propagated by the question-mark operator after the scratch directory was
created and before any cleanup runs, so the directory is left behind. -/
theorem c4_cleanup_counterexample :
    concatenate_clips [⟨"a.mp4", qofInt 0, qofInt 1⟩] "out.mp4" none none 1
        ⟨true, [CmdOutcome.spawnErr], true, CmdOutcome.exitOk, CmdOutcome.exitOk, true⟩
      = { result := Except.error "Failed to execute FFmpeg: oserr", spawned := [],
          wroteDoc := none, dirCreated := true, cleanupAttempted := false } := by
  decide

theorem concatenate_clips_cons (c0 : ClipSeg) (rest : List ClipSeg) (o : String)
    (eo : Option (Option String)) (pip : Option PipTrack) (pid : Nat) (env : ConcatEnv) :
    concatenate_clips (c0 :: rest) o eo pip pid env
      = concatCore (c0 :: rest) o
          (match eo with | none => some "source" | some r => r) pip pid env := rfl

/-- Claim C4, amended: after the scratch directory is created, cleanup runs
on the success path and on every nonzero-exit failure path, and the cleanup
outcome never changes the returned result; but the spawn-error paths (and the
list-write error path, covered by the `writeOk` hypothesis) return without
cleanup. -/
theorem c4_cleanup_amended :
    (∀ (clips : List ClipSeg) (o : String) (eo : Option (Option String))
        (pip : Option PipTrack) (pid : Nat) (env : ConcatEnv),
      clips ≠ [] → env.createOk = true → env.writeOk = true →
      (∀ j, j < clips.length →
        env.segOutcomes.getD j CmdOutcome.exitOk ≠ CmdOutcome.spawnErr) →
      env.concatOutcome ≠ CmdOutcome.spawnErr → env.pipOutcome ≠ CmdOutcome.spawnErr →
      (concatenate_clips clips o eo pip pid env).cleanupAttempted = true)
  ∧ (∀ (clips : List ClipSeg) (o : String) (eo : Option (Option String))
        (pip : Option PipTrack) (pid : Nat) (env : ConcatEnv) (b : Bool),
      concatenate_clips clips o eo pip pid { env with removeOk := b }
        = concatenate_clips clips o eo pip pid env) := by
  constructor
  · intro clips o eo pip pid env hne hc hw hseg hcc hpp
    obtain ⟨c0, rest, rfl⟩ : ∃ c0 rest, clips = c0 :: rest := by
      cases clips with
      | nil => exact absurd rfl hne
      | cons a t => exact ⟨a, t, rfl⟩
    rw [concatenate_clips_cons]
    obtain ⟨co, sOut, wo, cc, po, ro⟩ := env
    simp only at hc hw hseg hcc hpp
    subst hc
    subst hw
    simp only [concatCore]
    cases hs2 : (segLoop pid
        (match eo with | none => some "source" | some r => r)
        sOut 0 (c0 :: rest)).2 with
    | spawnFailed j =>
      obtain ⟨h1, _, h3⟩ := segLoop_spawnFailed pid _ sOut (c0 :: rest) 0 j hs2
      exact absurd h1 (hseg j (by simpa using h3))
    | exitFailed i =>
      simp [hs2]
    | ok =>
      simp only [hs2]
      cases pip with
      | none =>
        cases hcv : cc with
        | spawnErr => exact absurd hcv hcc
        | exitFail => simp [hcv]
        | exitOk => simp [hcv]
      | some p =>
        cases hcv : cc with
        | spawnErr => exact absurd hcv hcc
        | exitFail => simp [hcv]
        | exitOk =>
          cases hpv : po with
          | spawnErr => exact absurd hpv hpp
          | exitFail => simp [hcv, hpv]
          | exitOk => simp [hcv, hpv]
  · intro clips o eo pip pid env b
    rfl

/-- Witness for claim C4: a nonzero segment exit still reaches cleanup. -/
theorem c4_cleanup_amended_witness :
    (concatenate_clips [⟨"a.mp4", qofInt 0, qofInt 1⟩] "out.mp4" none none 1
        ⟨true, [CmdOutcome.exitFail], true, CmdOutcome.exitOk, CmdOutcome.exitOk,
         true⟩).cleanupAttempted = true :=
  c4_cleanup_amended.1 [⟨"a.mp4", qofInt 0, qofInt 1⟩] "out.mp4" none none 1
    ⟨true, [CmdOutcome.exitFail], true, CmdOutcome.exitOk, CmdOutcome.exitOk, true⟩
    (by decide) rfl rfl (by decide) (by decide) (by decide)

theorem filter_seg_cmds (pid : Nat) (ro : Option String) (l : List (Nat × ClipSeg)) :
    (l.map (fun p => segmentArgs pid ro p.1 p.2)).filter
      (fun cmd => cmd.getD 1 "" == "-f") = [] := by
  induction l with
  | nil => rfl
  | cons a t ih =>
    simp only [List.map_cons, List.filter_cons, segmentArgs_getD_one]
    simpa using ih

theorem concatCore_all_ok (c0 : ClipSeg) (rest : List ClipSeg) (o : String)
    (ro : Option String) (pid : Nat) (sOut : List CmdOutcome) (po : CmdOutcome)
    (roB : Bool)
    (hseg : ∀ j, j < (c0 :: rest).length →
      sOut.getD j CmdOutcome.exitOk = CmdOutcome.exitOk) :
    concatCore (c0 :: rest) o ro none pid ⟨true, sOut, true, CmdOutcome.exitOk, po, roB⟩
      = { result := Except.ok o,
          spawned := (((c0 :: rest).enumFrom 0).map (fun p => segmentArgs pid ro p.1 p.2))
            ++ [concatDemuxArgs pid o],
          wroteDoc := some (concatListDoc pid (c0 :: rest).length),
          dirCreated := true, cleanupAttempted := true } := by
  simp only [concatCore]
  rw [segLoop_all_ok pid ro sOut (c0 :: rest) 0 (by simpa using hseg)]
  rfl

/-- Claim C7, confirmed: concatenating K clips with no picture-in-picture
track writes a concat-list document of exactly K lines — one `file` line per
scratch segment path, in order, and nothing else — and spawns exactly one
concat-demux invocation (the only spawned command with `-f`), which uses `-c
copy`. -/
theorem c7_concat_no_pip (clips : List ClipSeg) (o : String)
    (eo : Option (Option String)) (pid : Nat) (env : ConcatEnv)
    (hne : clips ≠ []) (hc : env.createOk = true) (hw : env.writeOk = true)
    (hseg : ∀ j, j < clips.length →
      env.segOutcomes.getD j CmdOutcome.exitOk = CmdOutcome.exitOk)
    (hcc : env.concatOutcome = CmdOutcome.exitOk) :
    (concatenate_clips clips o eo none pid env).result = Except.ok o
    ∧ (concatenate_clips clips o eo none pid env).wroteDoc
        = some (concatListDoc pid clips.length)
    ∧ concatListDoc pid clips.length
        = String.intercalate "\n"
            ((List.range clips.length).map (fun i => "file \x27" ++ segPath pid i ++ "\x27"))
    ∧ ((List.range clips.length).map
        (fun i => "file \x27" ++ segPath pid i ++ "\x27")).length = clips.length
    ∧ (concatenate_clips clips o eo none pid env).spawned.filter
        (fun cmd => cmd.getD 1 "" == "-f") = [concatDemuxArgs pid o]
    ∧ "-c" ∈ concatDemuxArgs pid o ∧ "copy" ∈ concatDemuxArgs pid o := by
  obtain ⟨c0, rest, rfl⟩ : ∃ c0 rest, clips = c0 :: rest := by
    cases clips with
    | nil => exact absurd rfl hne
    | cons a t => exact ⟨a, t, rfl⟩
  obtain ⟨co, sOut, wo, cc, po, roB⟩ := env
  simp only at hc hw hseg hcc
  subst hc
  subst hw
  subst hcc
  rw [concatenate_clips_cons]
  rw [concatCore_all_ok c0 rest o _ pid sOut po roB hseg]
  refine ⟨rfl, rfl, rfl, by simp, ?_, by simp [concatDemuxArgs], by simp [concatDemuxArgs]⟩
  rw [List.filter_append, filter_seg_cmds]
  rfl

theorem getLast?_cons_ne {α : Type} (a : α) (l : List α) (h : l ≠ []) :
    (a :: l).getLast? = l.getLast? := by
  cases l with
  | nil => exact absurd rfl h
  | cons b t => exact List.getLast?_cons_cons

theorem overlayRest_length : ∀ (xys : List (Int × Int)) (i : Nat),
    (overlayRest xys i).length = xys.length := by
  intro xys
  induction xys with
  | nil => intro i; rfl
  | cons xy t ih =>
    intro i
    cases t with
    | nil => rfl
    | cons y t2 =>
      simp only [overlayRest, List.length_cons]
      rw [ih (i + 1)]
      simp

theorem overlayChain_length (xys : List (Int × Int)) :
    (overlayChain xys).length = xys.length := by
  cases xys with
  | nil => rfl
  | cons xy t => simp [overlayChain, overlayRest_length]

theorem overlayRest_ne_nil (xy : Int × Int) (t : List (Int × Int)) (i : Nat) :
    overlayRest (xy :: t) i ≠ [] := by
  intro hnil
  have := overlayRest_length (xy :: t) i
  rw [hnil] at this
  simp at this

theorem overlayRest_last_out : ∀ (xys : List (Int × Int)) (i : Nat), xys ≠ [] →
    ((overlayRest xys i).map OverlaySeg.out).getLast? = some Pad.vout := by
  intro xys
  induction xys with
  | nil => intro i h; exact absurd rfl h
  | cons xy t ih =>
    intro i h
    cases t with
    | nil => rfl
    | cons y t2 =>
      simp only [overlayRest, List.map_cons]
      rw [getLast?_cons_ne _ _ (by
        intro hnil
        exact overlayRest_ne_nil y t2 (i + 1) (List.map_eq_nil_iff.mp hnil))]
      exact ih (i + 1) (by simp)

theorem overlayChain_last_out (xy y : Int × Int) (t : List (Int × Int)) :
    ((overlayChain (xy :: y :: t)).map OverlaySeg.out).getLast? = some Pad.vout := by
  simp only [overlayChain, List.map_cons]
  rw [getLast?_cons_ne _ _ (by
    intro hnil
    exact overlayRest_ne_nil y t 1 (List.map_eq_nil_iff.mp hnil))]
  exact overlayRest_last_out (y :: t) 1 (by simp)

theorem overlayRest_top : ∀ (xys : List (Int × Int)) (i k : Nat) (seg : OverlaySeg),
    (overlayRest xys i)[k]? = some seg → seg.top = Pad.v (i + k) := by
  intro xys
  induction xys with
  | nil =>
    intro i k seg h
    simp [overlayRest] at h
  | cons xy t ih =>
    intro i k seg h
    cases t with
    | nil =>
      cases k with
      | zero =>
        simp only [overlayRest, List.getElem?_cons_zero, Option.some.injEq] at h
        rw [← h]
        simp
      | succ k2 => simp [overlayRest] at h
    | cons y t2 =>
      cases k with
      | zero =>
        simp only [overlayRest, List.getElem?_cons_zero, Option.some.injEq] at h
        rw [← h]
        simp
      | succ k2 =>
        simp only [overlayRest, List.getElem?_cons_succ] at h
        have hv := ih (i + 1) k2 seg h
        rw [hv]
        congr 1
        omega

theorem overlayChain_top (xys : List (Int × Int)) (k : Nat) (seg : OverlaySeg)
    (h : (overlayChain xys)[k]? = some seg) : seg.top = Pad.v k := by
  cases xys with
  | nil => simp [overlayChain] at h
  | cons xy t =>
    cases k with
    | zero =>
      simp only [overlayChain, List.getElem?_cons_zero, Option.some.injEq] at h
      rw [← h]
    | succ k2 =>
      simp only [overlayChain, List.getElem?_cons_succ] at h
      have hv := overlayRest_top t 1 k2 seg h
      rw [hv]
      congr 1
      omega

/-- Claim C3, counterexample: a three-track composite export produces three
overlay segments, not two — the fold emits one overlay per track because the
base is the prepared background canvas, so the spec count of N minus 1 is off
by one. -/
theorem c3_composite_counterexample :
    (export_composite_plan sampleTracks 1920 1080 none "o.mp4").map
        (fun p => p.overlaySegs.length) = Except.ok 2
    ∧ (2 : Nat) ≠ sampleTracks.length - 1 := by
  decide

/-- Claim C3, amended: for every accepted export plan the fold produces
exactly N chained overlay segments, the last labeled `vout`, segment k
overlaying stream k; the sort is `insertionSort` by z-index, which keeps any
z-ordered pair in its original relative order (stability); for N equal to 1
the chain is the single segment overlaying the only track onto the base with
output `vout` and no intermediate label; and tracks with z-indices 2, 0, 1
are processed in the order of the sorted paths. -/
theorem c3_composite_overlay :
    (∀ (tracks : List Track) (cW cH : Int) (eo : Option (Option String)) (o : String)
        (plan : CompositePlan),
      export_composite_plan tracks cW cH eo o = Except.ok plan →
      plan.overlaySegs.length = tracks.length
      ∧ (plan.overlaySegs.map OverlaySeg.out).getLast? = some Pad.vout
      ∧ (∀ (k : Nat) (seg : OverlaySeg), plan.overlaySegs[k]? = some seg →
          seg.top = Pad.v k)
      ∧ plan.sorted = List.insertionSort (fun a b => a.z_index ≤ b.z_index) tracks
      ∧ (tracks.length = 1 → ∃ x y, plan.overlaySegs
          = [{ base := Pad.bg, top := Pad.v 0, x := x, y := y, out := Pad.vout }]))
  ∧ (∀ (a b : Track) (tracks : List Track), a.z_index ≤ b.z_index →
      List.Sublist [a, b] tracks →
      List.Sublist [a, b] (List.insertionSort (fun x y => x.z_index ≤ y.z_index) tracks))
  ∧ ((export_composite_plan
      [{ path := "A", position_x := 0, position_y := 0, volume := qofInt 1,
         opacity := qofInt 1, width := 1920, height := 1080, z_index := 2 },
       { path := "B", position_x := 0, position_y := 0, volume := qofInt 1,
         opacity := qofInt 1, width := 1920, height := 1080, z_index := 0 },
       { path := "C", position_x := 0, position_y := 0, volume := qofInt 1,
         opacity := qofInt 1, width := 1920, height := 1080, z_index := 1 }]
      1920 1080 none "o.mp4").map (fun p => p.sorted.map Track.path)
      = Except.ok ["B", "C", "A"]) := by
  refine ⟨?_, ?_, by decide⟩
  · intro tracks cW cH eo o plan hok
    cases tracks with
    | nil => simp [export_composite_plan] at hok
    | cons t0 ts =>
      simp only [export_composite_plan, List.isEmpty_cons, Bool.false_eq_true,
        if_false] at hok
      revert hok
      generalize (match eo with | none => some "source" | some r => r : Option String) = RO
      intro hok
      cases htier : compositeTier cW cH RO with
      | error e =>
        rw [htier] at hok
        simp at hok
      | ok v =>
        obtain ⟨outW, outH, bitrate⟩ := v
        rw [htier] at hok
        simp only [Except.ok.injEq] at hok
        subst hok
        have hlen := List.length_insertionSort
          (r := fun a b : Track => a.z_index ≤ b.z_index) (t0 :: ts)
        cases hs : List.insertionSort (fun a b : Track => a.z_index ≤ b.z_index)
            (t0 :: ts) with
        | nil =>
          rw [hs] at hlen
          simp at hlen
        | cons s0 ss =>
          rw [hs] at hlen
          cases ss with
          | nil =>
            simp only [hs]
            refine ⟨?_, ?_, ?_, ?_, ?_⟩
            · simpa using hlen
            · rfl
            · intro k seg h
              cases k with
              | zero =>
                simp only [List.getElem?_cons_zero, Option.some.injEq] at h
                rw [← h]
              | succ k2 => simp at h
            · trivial
            · intro h1
              exact ⟨_, _, rfl⟩
          | cons s1 ss2 =>
            simp only [hs]
            refine ⟨?_, ?_, ?_, ?_, ?_⟩
            · rw [overlayChain_length, List.length_map]
              simpa using hlen
            · simp only [List.map_cons]
              exact overlayChain_last_out _ _ _
            · intro k seg h
              exact overlayChain_top _ k seg h
            · trivial
            · intro h1
              simp only [List.length_cons] at hlen h1
              omega
  · intro a b tracks hab hsub
    exact List.pair_sublist_insertionSort hab hsub

set_option maxRecDepth 8000 in

/-- Witness for claim C3: the sample three-track plan has three overlay
segments with last output `vout`. -/
theorem c3_composite_overlay_witness :
    samplePlan.overlaySegs.length = sampleTracks.length
    ∧ (samplePlan.overlaySegs.map OverlaySeg.out).getLast? = some Pad.vout :=
  ⟨(c3_composite_overlay.1 sampleTracks 1920 1080 none "o.mp4" samplePlan
      (by decide)).1,
   (c3_composite_overlay.1 sampleTracks 1920 1080 none "o.mp4" samplePlan
      (by decide)).2.1⟩

theorem findMarker_le (a b : Nat) :
    ∀ (l : List Nat) (s : Nat), findMarker a b l = some s → s + 2 ≤ l.length := by
  intro l
  induction l with
  | nil =>
    intro s h
    exact Option.noConfusion h
  | cons x t ih =>
    intro s h
    cases t with
    | nil => exact Option.noConfusion h
    | cons y t2 =>
      simp only [findMarker] at h
      by_cases hxy : x = a ∧ y = b
      · rw [if_pos hxy] at h
        cases h
        simp
      · rw [if_neg hxy] at h
        cases hm : findMarker a b (y :: t2) with
        | none =>
          rw [hm] at h
          simp at h
        | some s2 =>
          rw [hm] at h
          simp at h
          have hgt := ih s2 hm
          simp only [List.length_cons] at hgt ⊢
          omega

theorem findMarker_append (a b : Nat) :
    ∀ (l e : List Nat) (s : Nat),
      findMarker a b l = some s → findMarker a b (l ++ e) = some s := by
  intro l
  induction l with
  | nil =>
    intro e s h
    exact Option.noConfusion h
  | cons x t ih =>
    intro e s h
    cases t with
    | nil => exact Option.noConfusion h
    | cons y t2 =>
      simp only [List.cons_append]
      simp only [findMarker] at h ⊢
      by_cases hxy : x = a ∧ y = b
      · rw [if_pos hxy] at h ⊢
        exact h
      · rw [if_neg hxy] at h ⊢
        cases hm : findMarker a b (y :: t2) with
        | none =>
          rw [hm] at h
          simp at h
        | some s2 =>
          rw [hm] at h
          have h2 := ih e s2 hm
          simp only [List.cons_append] at h2
          rw [h2]
          exact h

theorem findMarker_drop_self (a b : Nat) :
    ∀ (l : List Nat) (s : Nat), findMarker a b l = some s →
      ∃ t, l.drop s = a :: b :: t := by
  intro l
  induction l with
  | nil =>
    intro s h
    exact Option.noConfusion h
  | cons x t ih =>
    intro s h
    cases t with
    | nil => exact Option.noConfusion h
    | cons y t2 =>
      simp only [findMarker] at h
      by_cases hxy : x = a ∧ y = b
      · rw [if_pos hxy] at h
        cases h
        obtain ⟨hx, hy⟩ := hxy
        subst hx
        subst hy
        exact ⟨t2, rfl⟩
      · rw [if_neg hxy] at h
        cases hm : findMarker a b (y :: t2) with
        | none =>
          rw [hm] at h
          simp at h
        | some s2 =>
          rw [hm] at h
          simp at h
          obtain ⟨t3, ht⟩ := ih s2 hm
          refine ⟨t3, ?_⟩
          rw [← h, List.drop_succ_cons]
          exact ht

theorem findMarker_self (a b : Nat) (t : List Nat) :
    findMarker a b (a :: b :: t) = some 0 := by
  simp [findMarker]

theorem findMarker_none_tail (a b x : Nat) (l : List Nat)
    (h : findMarker a b (x :: l) = none) : findMarker a b l = none := by
  cases l with
  | nil => rfl
  | cons y t2 =>
    simp only [findMarker] at h
    by_cases hxy : x = a ∧ y = b
    · rw [if_pos hxy] at h
      simp at h
    · rw [if_neg hxy] at h
      cases hm : findMarker a b (y :: t2) with
      | none => rfl
      | some s2 =>
        rw [hm] at h
        simp at h

theorem findMarker_none_drop (a b : Nat) :
    ∀ (n : Nat) (l : List Nat), findMarker a b l = none →
      findMarker a b (l.drop n) = none := by
  intro n
  induction n with
  | zero =>
    intro l h
    simpa using h
  | succ m ih =>
    intro l h
    cases l with
    | nil => rfl
    | cons x t =>
      rw [List.drop_succ_cons]
      exact ih t (findMarker_none_tail a b x t h)

theorem processBufferF_congr :
    ∀ (f1 f2 : Nat) (buf : List Nat), buf.length ≤ f1 → buf.length ≤ f2 →
      processBufferF f1 buf = processBufferF f2 buf := by
  intro f1
  induction f1 with
  | zero =>
    intro f2 buf h1 h2
    have hb : buf = [] := List.eq_nil_of_length_eq_zero (Nat.le_zero.mp h1)
    subst hb
    cases f2 with
    | zero => rfl
    | succ m => simp [processBufferF, findMarker]
  | succ n ih =>
    intro f2 buf h1 h2
    cases f2 with
    | zero =>
      have hb : buf = [] := List.eq_nil_of_length_eq_zero (Nat.le_zero.mp h2)
      subst hb
      simp [processBufferF, findMarker]
    | succ m =>
      cases hs : findMarker 255 216 buf with
      | none => simp [processBufferF, hs]
      | some s =>
        cases he : findMarker 255 217 (buf.drop s) with
        | none => simp [processBufferF, hs, he]
        | some e =>
          have hle1 := findMarker_le 255 216 buf s hs
          have hle2 := findMarker_le 255 217 (buf.drop s) e he
          have hlen1 : ((buf.drop s).drop (e + 2)).length ≤ n := by
            simp only [List.length_drop] at hle2 ⊢
            omega
          have hlen2 : ((buf.drop s).drop (e + 2)).length ≤ m := by
            simp only [List.length_drop] at hle2 ⊢
            omega
          simp only [processBufferF, hs, he]
          rw [ih m ((buf.drop s).drop (e + 2)) hlen1 hlen2]

theorem pb_start_none (buf : List Nat) (h : findMarker 255 216 buf = none) :
    processBuffer buf = (buf, []) := by
  unfold processBuffer
  cases hf : buf.length with
  | zero => rfl
  | succ n => simp [processBufferF, h]

theorem pb_end_none (buf : List Nat) (s : Nat)
    (h1 : findMarker 255 216 buf = some s)
    (h2 : findMarker 255 217 (buf.drop s) = none) :
    processBuffer buf = (buf.drop s, []) := by
  unfold processBuffer
  have hle := findMarker_le 255 216 buf s h1
  obtain ⟨f, hf⟩ : ∃ f, buf.length = f + 1 := ⟨buf.length - 1, by omega⟩
  rw [hf]
  simp [processBufferF, h1, h2]

theorem pb_frame (buf : List Nat) (s e : Nat)
    (h1 : findMarker 255 216 buf = some s)
    (h2 : findMarker 255 217 (buf.drop s) = some e) :
    processBuffer buf
      = ((processBuffer ((buf.drop s).drop (e + 2))).1,
         (buf.drop s).take (e + 2) :: (processBuffer ((buf.drop s).drop (e + 2))).2) := by
  have hle1 := findMarker_le 255 216 buf s h1
  have hle2 := findMarker_le 255 217 (buf.drop s) e h2
  conv_lhs => rw [processBuffer]
  obtain ⟨f, hf⟩ : ∃ f, buf.length = f + 1 := ⟨buf.length - 1, by omega⟩
  rw [hf]
  simp only [processBufferF, h1, h2]
  have hvv : processBufferF f ((buf.drop s).drop (e + 2))
      = processBuffer ((buf.drop s).drop (e + 2)) := by
    unfold processBuffer
    apply processBufferF_congr
    · simp only [List.length_drop] at hle2 ⊢
      omega
    · exact le_rfl
  rw [hvv]

theorem processBuffer_online :
    ∀ (n : Nat) (buf : List Nat), buf.length ≤ n → ∀ (extra : List Nat),
      processBuffer (buf ++ extra)
        = ((processBuffer ((processBuffer buf).1 ++ extra)).1,
           (processBuffer buf).2 ++ (processBuffer ((processBuffer buf).1 ++ extra)).2) := by
  intro n
  induction n with
  | zero =>
    intro buf h extra
    have hb : buf = [] := List.eq_nil_of_length_eq_zero (Nat.le_zero.mp h)
    subst hb
    rw [pb_start_none [] rfl]
    simp
  | succ m ih =>
    intro buf h extra
    cases hs : findMarker 255 216 buf with
    | none =>
      rw [pb_start_none buf hs]
      simp
    | some s =>
      have hle1 := findMarker_le 255 216 buf s hs
      have hdropapp : (buf ++ extra).drop s = buf.drop s ++ extra :=
        List.drop_append_of_le_length (by omega)
      have hsapp : findMarker 255 216 (buf ++ extra) = some s :=
        findMarker_append 255 216 buf extra s hs
      obtain ⟨t0, ht0⟩ := findMarker_drop_self 255 216 buf s hs
      have hstart0 : findMarker 255 216 (buf.drop s ++ extra) = some 0 := by
        rw [ht0, List.cons_append, List.cons_append]
        exact findMarker_self 255 216 (t0 ++ extra)
      cases he : findMarker 255 217 (buf.drop s) with
      | none =>
        rw [pb_end_none buf s hs he]
        have key : processBuffer (buf ++ extra) = processBuffer (buf.drop s ++ extra) := by
          cases he2 : findMarker 255 217 (buf.drop s ++ extra) with
          | none =>
            rw [pb_end_none (buf ++ extra) s hsapp (by rw [hdropapp]; exact he2)]
            rw [pb_end_none (buf.drop s ++ extra) 0 hstart0 (by simpa using he2)]
            rw [hdropapp]
            simp
          | some e2 =>
            rw [pb_frame (buf ++ extra) s e2 hsapp (by rw [hdropapp]; exact he2)]
            rw [pb_frame (buf.drop s ++ extra) 0 e2 hstart0 (by simpa using he2)]
            rw [hdropapp]
            simp
        rw [key]
        simp
      | some e =>
        have hle2 := findMarker_le 255 217 (buf.drop s) e he
        have heapp : findMarker 255 217 (buf.drop s ++ extra) = some e :=
          findMarker_append 255 217 (buf.drop s) extra e he
        have htake : (buf.drop s ++ extra).take (e + 2) = (buf.drop s).take (e + 2) :=
          List.take_append_of_le_length (by simp only [List.length_drop] at hle2 ⊢; omega)
        have hdrop2 : (buf.drop s ++ extra).drop (e + 2)
            = (buf.drop s).drop (e + 2) ++ extra :=
          List.drop_append_of_le_length (by simp only [List.length_drop] at hle2 ⊢; omega)
        rw [pb_frame buf s e hs he]
        rw [pb_frame (buf ++ extra) s e hsapp (by rw [hdropapp]; exact heapp)]
        rw [hdropapp, htake, hdrop2]
        have hrec := ih ((buf.drop s).drop (e + 2))
          (by simp only [List.length_drop] at hle2 ⊢; omega) extra
        rw [hrec]
        simp

theorem pb_residual :
    ∀ (n : Nat) (buf : List Nat), buf.length ≤ n →
      processBuffer (processBuffer buf).1 = ((processBuffer buf).1, []) := by
  intro n
  induction n with
  | zero =>
    intro buf h
    have hb : buf = [] := List.eq_nil_of_length_eq_zero (Nat.le_zero.mp h)
    subst hb
    rw [pb_start_none [] rfl]
    exact pb_start_none [] rfl
  | succ m ih =>
    intro buf h
    cases hs : findMarker 255 216 buf with
    | none =>
      rw [pb_start_none buf hs]
      exact pb_start_none buf hs
    | some s =>
      obtain ⟨t0, ht0⟩ := findMarker_drop_self 255 216 buf s hs
      have hle1 := findMarker_le 255 216 buf s hs
      have hstart0 : findMarker 255 216 (buf.drop s) = some 0 := by
        rw [ht0]
        exact findMarker_self 255 216 t0
      cases he : findMarker 255 217 (buf.drop s) with
      | none =>
        rw [pb_end_none buf s hs he]
        have hd := pb_end_none (buf.drop s) 0 hstart0 (by simpa using he)
        simpa using hd
      | some e =>
        have hle2 := findMarker_le 255 217 (buf.drop s) e he
        rw [pb_frame buf s e hs he]
        exact ih ((buf.drop s).drop (e + 2))
          (by simp only [List.length_drop] at hle2 ⊢; omega)

theorem runReads_offline :
    ∀ (cs : List (List Nat)) (buf : List Nat), processBuffer buf = (buf, []) →
      runReads buf cs = (processBuffer (buf ++ cs.flatten)).2 := by
  intro cs
  induction cs with
  | nil =>
    intro buf hres
    simp only [runReads, List.flatten_nil, List.append_nil, hres]
  | cons c cs2 ih =>
    intro buf hres
    simp only [runReads, List.flatten_cons]
    have hres2 : processBuffer (processBuffer (buf ++ c)).1
        = ((processBuffer (buf ++ c)).1, []) :=
      pb_residual (buf ++ c).length (buf ++ c) le_rfl
    rw [ih _ hres2]
    have honline := processBuffer_online (buf ++ c).length (buf ++ c) le_rfl cs2.flatten
    rw [← List.append_assoc] at *
    rw [honline]

theorem demux_offline (chunks : List (List Nat)) :
    demuxFrames chunks = (processBuffer chunks.flatten).2 := by
  unfold demuxFrames
  rw [runReads_offline chunks [] (pb_start_none [] rfl)]
  simp

/-- Claim C8, confirmed: however the byte stream is split into reads, if the
stream is prefix bytes, a start marker, a middle without markers and an end
marker, exactly one frame is emitted holding the bytes from the start marker
through the end marker inclusive (the prefix is discarded); and a stream
whose bytes contain no end marker emits no frame at all, so a lone start
marker or a truncated trailing frame is never emitted. -/
theorem c8_demuxer :
    (∀ (chunks : List (List Nat)) (p m : List Nat),
      chunks.flatten = p ++ jpegStart ++ m ++ jpegEnd →
      findMarker 255 216 (p ++ jpegStart ++ m ++ jpegEnd) = some p.length →
      findMarker 255 217 (jpegStart ++ m ++ jpegEnd) = some (m.length + 2) →
      demuxFrames chunks = [jpegStart ++ m ++ jpegEnd])
  ∧ (∀ (chunks : List (List Nat)),
      findMarker 255 217 chunks.flatten = none →
      demuxFrames chunks = []) := by
  constructor
  · intro chunks p m hj h1 h2
    rw [demux_offline, hj]
    have hd : (p ++ jpegStart ++ m ++ jpegEnd).drop p.length
        = jpegStart ++ m ++ jpegEnd := by
      rw [List.append_assoc p jpegStart, List.append_assoc p]
      exact List.drop_left p _
    rw [pb_frame (p ++ jpegStart ++ m ++ jpegEnd) p.length (m.length + 2) h1
      (by rw [hd]; exact h2)]
    rw [hd]
    have hlen : (jpegStart ++ m ++ jpegEnd).length = m.length + 2 + 2 := by
      simp [jpegStart, jpegEnd]
    have htake : (jpegStart ++ m ++ jpegEnd).take (m.length + 2 + 2)
        = jpegStart ++ m ++ jpegEnd := by
      rw [← hlen]
      exact List.take_length _
    have hdrop : (jpegStart ++ m ++ jpegEnd).drop (m.length + 2 + 2) = [] := by
      rw [← hlen]
      exact List.drop_length _
    rw [htake, hdrop, pb_start_none [] rfl]
  · intro chunks hnone
    rw [demux_offline]
    cases hs : findMarker 255 216 chunks.flatten with
    | none => rw [pb_start_none _ hs]
    | some s =>
      rw [pb_end_none _ s hs (findMarker_none_drop 255 217 s _ hnone)]

/-- Witness for claim C8: a stream split across three reads emits exactly its
one complete frame; a start marker with no end emits nothing. -/
theorem c8_demuxer_witness :
    demuxFrames [[0, 255], [216, 7], [255, 217]] = [[255, 216, 7, 255, 217]]
    ∧ demuxFrames [[255, 216, 1, 2]] = [] :=
  ⟨by
    have h := c8_demuxer.1 [[0, 255], [216, 7], [255, 217]] [0] [7]
      (by decide) (by decide) (by decide)
    simpa [jpegStart, jpegEnd] using h,
   c8_demuxer.2 [[255, 216, 1, 2]] (by decide)⟩

/-- Witness for claim C7: two clips and no picture-in-picture track. -/
theorem c7_concat_no_pip_witness :
    (concatenate_clips [⟨"a.mp4", qofInt 0, qofInt 1⟩, ⟨"b.mp4", qofInt 0, qofInt 2⟩]
        "out.mp4" none none 7
        ⟨true, [], true, CmdOutcome.exitOk, CmdOutcome.exitOk, true⟩).wroteDoc
      = some (concatListDoc 7 2)
    ∧ (concatenate_clips [⟨"a.mp4", qofInt 0, qofInt 1⟩, ⟨"b.mp4", qofInt 0, qofInt 2⟩]
        "out.mp4" none none 7
        ⟨true, [], true, CmdOutcome.exitOk, CmdOutcome.exitOk, true⟩).spawned.filter
        (fun cmd => cmd.getD 1 "" == "-f") = [concatDemuxArgs 7 "out.mp4"] :=
  ⟨((c7_concat_no_pip [⟨"a.mp4", qofInt 0, qofInt 1⟩, ⟨"b.mp4", qofInt 0, qofInt 2⟩]
      "out.mp4" none 7 ⟨true, [], true, CmdOutcome.exitOk, CmdOutcome.exitOk, true⟩
      (by decide) rfl rfl (by decide) rfl).2.1),
   ((c7_concat_no_pip [⟨"a.mp4", qofInt 0, qofInt 1⟩, ⟨"b.mp4", qofInt 0, qofInt 2⟩]
      "out.mp4" none 7 ⟨true, [], true, CmdOutcome.exitOk, CmdOutcome.exitOk, true⟩
      (by decide) rfl rfl (by decide) rfl).2.2.2.2.1)⟩
